import Mathlib

/-!
Shallow embedding of the revenue-line chart core of the repository
(`src/graphs/lineRevenue.py`): the per-row date resolver `_parse_data_anno`
and the aggregator `line_revenue`.

Modelling conventions:
* A spreadsheet cell is missing (`NaN`), a string, or a number (`Rat`).
* Python exceptions are modelled with `Except PyErr`; each `try/except`
  of the source becomes an explicit handler that catches exactly the
  listed exception classes and re-raises the rest.
* `pd.Timestamp` values are records of calendar fields plus a
  second-of-day; comparisons between timestamps go through `tsKey`
  (seconds since the 1970-01-01 epoch), matching pandas' linear
  timestamp order.  `pd.NaT` is `Option.none`.
* `pd.to_datetime(raw, errors='coerce')` (library call) is modelled by
  `pdToDatetime` on the input shapes this dataset can produce: ISO
  `YYYY-MM-DD[ HH:MM[:SS]]` (separators `-` or `/`), ISO year-month
  `YYYY-MM`, and three-numeric-fragment dates with a four-digit year;
  for the latter pandas' documented default `dayfirst=False` applies:
  the first fragment is the month when it is ≤ 12, otherwise the
  fragments are read day-first.  Two-fragment day/month strings such
  as `31/08` carry no year and coerce to `NaT` (pandas resolves the
  missing year to year 1, out of `datetime64[ns]` bounds), which is
  what the manual fragment cascade of the source relies on.
* Python `int(s)` / `float(s)` are modelled on sign + decimal-digit
  forms (plus the `nan`/`inf` literals for `float`); `int(float(x))`
  truncates toward zero, raises `ValueError` on NaN and — uncaught by
  the source's handlers — `OverflowError` on an infinite value.
-/

namespace Lart

/-- Python exception classes that the source can raise or catch.
`OutOfBoundsDatetime` is a subclass of `ValueError` and is folded into
`valueError`. -/
inductive PyErr where
  | keyError
  | typeError
  | valueError
  | overflowError
deriving DecidableEq

/-- A spreadsheet cell: missing (NaN), free text, or a number. -/
inductive Cell where
  | nan
  | str (s : String)
  | num (q : Rat)
deriving DecidableEq

/-- Result of Python `float(...)`: NaN, ±infinity, or a finite value. -/
inductive PyFloat where
  | nan
  | inf (neg : Bool)
  | val (q : Rat)
deriving DecidableEq

/-- A `pd.Timestamp`: calendar fields plus second-of-day. -/
structure Ts where
  y : Int
  m : Int
  d : Int
  sod : Int
deriving DecidableEq

instance : Inhabited Ts := ⟨⟨1970, 1, 1, 0⟩⟩

/-- Gregorian leap year. -/
def isLeap (y : Int) : Prop := (y % 4 = 0 ∧ y % 100 ≠ 0) ∨ y % 400 = 0

instance (y : Int) : Decidable (isLeap y) := by unfold isLeap; infer_instance

/-- Length of a calendar month. -/
def daysInMonth (y m : Int) : Int :=
  if m = 2 then (if isLeap y then 29 else 28)
  else if m = 4 ∨ m = 6 ∨ m = 9 ∨ m = 11 then 30
  else 31

/-- Days since 1970-01-01 of a civil date (Hinnant's `days_from_civil`,
with genuine floor division). -/
def toDays (y m d : Int) : Int :=
  let y' := if m ≤ 2 then y - 1 else y
  let era := y' / 400
  let yoe := y' - era * 400
  let mp := (m + 9) % 12
  let doy := ((153 * mp + 2) / 5) + d - 1
  let doe := yoe * 365 + yoe / 4 - yoe / 100 + doy
  era * 146097 + doe - 719468

/-- Civil date (at midnight) of a count of days since 1970-01-01
(Hinnant's `civil_from_days`). -/
def fromDays (z0 : Int) : Ts :=
  let z := z0 + 719468
  let era := z / 146097
  let doe := z - era * 146097
  let yoe := (doe - doe / 1460 + doe / 36524 - doe / 146096) / 365
  let y0 := yoe + era * 400
  let doy := doe - (365 * yoe + yoe / 4 - yoe / 100)
  let mp := (5 * doy + 2) / 153
  let d := doy - (153 * mp + 2) / 5 + 1
  let m := mp + (if mp < 10 then 3 else -9)
  ⟨(if m ≤ 2 then y0 + 1 else y0), m, d, 0⟩

/-- Linear key of a timestamp: seconds since the epoch.  pandas
timestamp comparison is comparison of these keys. -/
def tsKey (t : Ts) : Int := 86400 * toDays t.y t.m t.d + t.sod

/-- A timestamp whose fields are in their calendar ranges. -/
def Ts.Valid (t : Ts) : Prop :=
  1 ≤ t.m ∧ t.m ≤ 12 ∧ 1 ≤ t.d ∧ t.d ≤ daysInMonth t.y t.m ∧ 0 ≤ t.sod ∧ t.sod < 86400

instance (t : Ts) : Decidable t.Valid := by unfold Ts.Valid; infer_instance

/-- Calendar validity of a (year, month, day) triple. -/
def calOk (y m d : Int) : Bool :=
  1 ≤ m && m ≤ 12 && 1 ≤ d && d ≤ daysInMonth y m

/-- Lexicographic order on (year, month, day) triples. -/
def lexLe (y1 m1 d1 y2 m2 d2 : Int) : Bool :=
  y1 < y2 || (y1 = y2 && (m1 < m2 || (m1 = m2 && d1 ≤ d2)))

/-- The `datetime64[ns]` representable date range (midnight dates from
1677-09-22 to 2262-04-11; the two half-covered boundary days are
approximated by one whole day on each side). -/
def boundsOk (y m d : Int) : Bool :=
  lexLe 1677 9 22 y m d && lexLe y m d 2262 4 11

/-- Model of `pd.Timestamp(year=…, month=…, day=…)`: an invalid calendar
combination or an out-of-bounds date raises `ValueError`
(`OutOfBoundsDatetime` included). -/
def mkTimestamp (y m d : Int) : Except PyErr Ts :=
  if calOk y m d && boundsOk y m d then .ok ⟨y, m, d, 0⟩ else .error .valueError

/-- Python `str(cell)` for a numeric cell: decimal expansion with at
least one fractional digit (`5.0`, `2.5`). -/
def fracDigits : Nat → Nat → Nat → String
  | 0, _, _ => ""
  | _, 0, _ => ""
  | fuel + 1, r, den => toString ((r * 10) / den) ++ fracDigits fuel ((r * 10) % den) den

/-- Python `str(...)` of a cell value (`str(float('nan')) = "nan"`). -/
def cellPyStr : Cell → String
  | .nan => "nan"
  | .str s => s
  | .num q =>
      let sgn := if q < 0 then "-" else ""
      let intPart := q.num.natAbs / q.den
      let f := fracDigits 25 (q.num.natAbs % q.den) q.den
      sgn ++ toString intPart ++ "." ++ (if f = "" then "0" else f)

/-- ASCII whitespace, as stripped by Python `str.strip()` (the model
covers the ASCII subset of Python's unicode whitespace). -/
def isWs (c : Char) : Bool := c = ' ' ∨ c = '\t' ∨ c = '\n' ∨ c = '\r'

/-- Python `str.strip()`. -/
def pyStrip (s : String) : String :=
  ⟨((s.data.dropWhile isWs).reverse.dropWhile isWs).reverse⟩

/-- ASCII lowering of one character (`str.lower()` on this dataset's
ASCII content). -/
def lowerCh (c : Char) : Char :=
  if 'A' ≤ c ∧ c ≤ 'Z' then Char.ofNat (c.toNat + 32) else c

/-- Python `str.lower()` (ASCII model). -/
def pyLower (s : String) : String := ⟨s.data.map lowerCh⟩

/-- Split on a single-character separator (`str.split(sep)` for the
one-character separators the source uses). -/
def splitChAux (sep : Char) : List Char → List Char → List String
  | [], acc => [⟨acc.reverse⟩]
  | ch :: cs, acc =>
      if ch = sep then ⟨acc.reverse⟩ :: splitChAux sep cs []
      else splitChAux sep cs (ch :: acc)

/-- `str.split(sep)` for a one-character separator. -/
def splitStr (sep : Char) (s : String) : List String := splitChAux sep s.data []

/-- `str.replace(old, new)` for one-character `old` and `new`. -/
def replaceCh (cold cnew : Char) (s : String) : String :=
  ⟨s.data.map (fun ch => if ch = cold then cnew else ch)⟩

/-- `str.replace(old, '')` for a one-character `old` (used to erase the
zero-width space). -/
def removeCh (cold : Char) (s : String) : String :=
  ⟨s.data.filter (fun ch => ch ≠ cold)⟩

/-- `str.startswith(c)` for a one-character argument. -/
def startsCh (c : Char) (s : String) : Bool :=
  match s.data with
  | [] => false
  | a :: _ => a = c

/-- Python `s[1:]` (drop the first character). -/
def dropFirst (s : String) : String := ⟨s.data.drop 1⟩

/-- Digit string to number, the effect of `int(s)` on a plain digit
string (`none` when the string is empty or has a non-digit). -/
def chNat? (s : String) : Option Nat :=
  if s.data ≠ [] ∧ s.data.all Char.isDigit then
    some (s.data.foldl (fun a ch => a * 10 + (ch.toNat - 48)) 0)
  else none

/-- The zero-width space removed by the source. -/
def zwspCh : Char := '\u200B'

/-- Code-point lexicographic string order (Python `str` comparison,
the order pandas' sorted `groupby` uses on string labels). -/
def chLe : List Char → List Char → Bool
  | [], _ => true
  | _ :: _, [] => false
  | a :: as, b :: bs => if a = b then chLe as bs else decide (a < b)

/-- Python `int(s)`: optional surrounding whitespace, optional sign,
decimal digits; anything else raises `ValueError`. -/
def pyInt (s : String) : Except PyErr Int :=
  let t := pyStrip s
  let (sg, ds) :=
    if startsCh '-' t then ((-1 : Int), dropFirst t)
    else if startsCh '+' t then ((1 : Int), dropFirst t)
    else ((1 : Int), t)
  match chNat? ds with
  | some n => .ok (sg * n)
  | none => .error .valueError

/-- Finite-decimal fragment parser shared by the models of Python
`float(s)` and `pd.to_numeric` (sign, digits, optional fraction;
exponent notation is outside the model). -/
def decOfString? (s : String) : Option Rat :=
  let t := pyStrip s
  let (sg, u) :=
    if startsCh '-' t then ((-1 : Int), dropFirst t)
    else if startsCh '+' t then ((1 : Int), dropFirst t)
    else ((1 : Int), t)
  match splitStr '.' u with
  | [a] => (chNat? a).map (fun n => (sg * n : Int))
  | [a, b] =>
      if a = "" && b = "" then none
      else
        match (if a = "" then some 0 else chNat? a), (if b = "" then some 0 else chNat? b) with
        | some ai, some bi =>
            some (mkRat (sg * (ai * 10 ^ b.length + bi)) (10 ^ b.length))
        | _, _ => none
  | _ => none

/-- Python `float(s)` on a string. -/
def pyFloatOfString (s : String) : Except PyErr PyFloat :=
  let t := pyLower (pyStrip s)
  if t = "nan" ∨ t = "+nan" ∨ t = "-nan" then .ok .nan
  else if t = "inf" ∨ t = "+inf" ∨ t = "infinity" ∨ t = "+infinity" then .ok (.inf false)
  else if t = "-inf" ∨ t = "-infinity" then .ok (.inf true)
  else
    match decOfString? s with
    | some q => .ok (.val q)
    | none => .error .valueError

/-- Python `float(cell)`. -/
def pyFloatOfCell : Cell → Except PyErr PyFloat
  | .nan => .ok .nan
  | .num q => .ok (.val q)
  | .str s => pyFloatOfString s

/-- Python `int(x)` on a float: truncation toward zero; `ValueError` on
NaN, `OverflowError` on an infinity. -/
def pyIntOfFloat : PyFloat → Except PyErr Int
  | .nan => .error .valueError
  | .inf _ => .error .overflowError
  | .val q => .ok (q.num.tdiv q.den)

/-- `pd.to_numeric(cell, errors='coerce')`. -/
def toNumeric : Cell → Option Rat
  | .nan => none
  | .num q => some q
  | .str s => decOfString? s

/-- Subscripting a row or frame by a column name: raises `KeyError`
when the column is absent. -/
def rowCell (present : Bool) (c : Cell) : Except PyErr Cell :=
  if present then .ok c else .error .keyError

/-- Time-of-day fragment `HH:MM[:SS]` of an ISO timestamp string, as a
second-of-day. -/
def timeSod (t : String) : Option Int :=
  match (splitStr ':' t).map chNat? with
  | [some h, some mi] =>
      if h < 24 && mi < 60 then some (3600 * h + 60 * mi) else none
  | [some h, some mi, some se] =>
      if h < 24 && mi < 60 && se < 60 then some (3600 * h + 60 * mi + se) else none
  | _ => none

/-- Expansion of a two-digit year fragment by dateutil's century rule,
for a clock in the mid-2020s (a two-digit year lands within 50 years of
the current year, so 00–74 is 20xx and 75–99 is 19xx). -/
def year2 (n : Int) : Int := if n < 75 then 2000 + n else 1900 + n

/-- Date fragments of the string handed to `pd.to_datetime`, resolved to
a (year, month, day) triple per pandas' defaults (`dayfirst=False`) on
this dataset's shapes: a lone four-digit fragment is a year, a leading
four-digit fragment is a year (ISO order, month second), a trailing
four-digit fragment is a year with the month first when the first
fragment can be a month and day first otherwise (dateutil's swap for an
impossible month), and a trailing fragment of at most two digits is a
year expanded by [year2] with the same month-first-or-swap rule.
A fragment list dateutil fills from its year-1 default (a day/month
pair with no year) falls outside `datetime64`'s range and is `none`
(`NaT` under `errors='coerce'`). -/
def pdDateFrags (fr : List String) : Option (Int × Int × Int) :=
  match fr with
  | [a] =>
      match chNat? a with
      | some ya => if a.length = 4 then some (ya, 1, 1) else none
      | none => none
  | [a, b] =>
      match chNat? a, chNat? b with
      | some ya, some mb =>
          if a.length = 4 && 1 ≤ mb && mb ≤ 12 then some (ya, mb, 1)
          else if b.length = 4 && 1 ≤ ya && ya ≤ 12 then some (mb, ya, 1)
          else none
      | _, _ => none
  | [a, b, c] =>
      match chNat? a, chNat? b, chNat? c with
      | some na, some nb, some nc =>
          if a.length = 4 then some (na, nb, nc)
          else if c.length = 4 then
            if na ≤ 12 then some (nc, na, nb) else some (nc, nb, na)
          else if c.length ≤ 2 then
            if na ≤ 12 then some (year2 nc, na, nb) else some (year2 nc, nb, na)
          else none
      | _, _, _ => none
  | _ => none

/-- Model of `pd.to_datetime(raw, errors='coerce')` on this dataset's
input shapes; `none` is `NaT`. -/
def pdToDatetime (raw : String) : Option Ts :=
  let toks := (splitStr ' ' raw).filter (fun p => p ≠ "")
  let comp : Option (String × Int) :=
    match toks with
    | [dstr] => some (dstr, 0)
    | [dstr, tstr] => (timeSod tstr).map (fun s => (dstr, s))
    | _ => none
  match comp with
  | none => none
  | some (dstr, sod) =>
      match pdDateFrags (splitStr '/' (replaceCh '-' '/' dstr)) with
      | some (y, m, d) =>
          if calOk y m d && boundsOk y m d then some ⟨y, m, d, sod⟩ else none
      | none => none


/-- Lines 32–34 of the source: normalise `-` to `/`, split, strip any
time fragment attached to a part, drop empties. -/
def fragsOf (raw : String) : List String :=
  let parts := (splitStr '/' (replaceCh '-' '/' raw)).map pyStrip
  let parts := parts.map (fun p =>
    if p ≠ "" then (((splitStr ' ' p).filter (fun w => w ≠ "")).headD "") else p)
  parts.filter (fun p => p ≠ "")

/-- Lines 41–45 of the source: `year = int(float(row[anno_col]))` inside
`try … except (ValueError, TypeError, KeyError)`.  An `OverflowError`
(infinite fallback value) is not in the caught list and re-raises. -/
def annoYear (hasANNO : Bool) (c : Cell) : Except PyErr (Option Int) :=
  match (do
      let cc ← rowCell hasANNO c
      let fv ← pyFloatOfCell cc
      pyIntOfFloat fv : Except PyErr Int) with
  | .ok yv => .ok (some yv)
  | .error .valueError => .ok none
  | .error .typeError => .ok none
  | .error .keyError => .ok none
  | .error e => .error e

/-- Lines 36–62 of the source: the fragment cascade inside
`try … except (ValueError, TypeError)`. -/
def fragCascade (hasANNO : Bool) (anno : Cell) (parts : List String) :
    Except PyErr (Option Ts) :=
  let body : Except PyErr (Option Ts) :=
    match parts with
    | [p0, p1] => do
        let day ← pyInt p0
        let month ← pyInt p1
        let year? ← annoYear hasANNO anno
        match year? with
        | some yv => do
            let t ← mkTimestamp yv month day
            pure (some t)
        | none => pure none
    | [p0, p1, p2] => do
        let day ← pyInt p0
        let month ← pyInt p1
        let year ←
          if p2.length > 2 then pyInt p2
          else do
            let n ← pyInt p2
            pure (2000 + n)
        let t ← mkTimestamp year month day
        pure (some t)
    | _ => pure none
  match body with
  | .ok v => .ok v
  | .error .valueError => .ok none
  | .error .typeError => .ok none
  | .error e => .error e

/-- One sale record: the cells of the columns the core touches. -/
structure Row where
  data : Cell
  anno : Cell
  prezzo : Cell
  luogo : Cell
  artista : Cell
  opera : Cell
deriving DecidableEq

/-- Embedding of `_parse_data_anno(row, date_col, anno_col)`
(src/graphs/lineRevenue.py lines 7–62).  `none` is `pd.NaT`. -/
def parse_data_anno (hasDATA hasANNO : Bool) (row : Row) :
    Except PyErr (Option Ts) :=
  match (rowCell hasDATA row.data).map cellPyStr with
  | .error .keyError => .ok none
  | .error .typeError => .ok none
  | .error e => .error e
  | .ok s0 =>
      let raw := removeCh zwspCh (pyStrip s0)
      if raw = "" ∨ pyLower raw = "nan" ∨ pyLower raw = "none" then .ok none
      else
        match pdToDatetime raw with
        | some dt => .ok (some dt)
        | none => fragCascade hasANNO row.anno (fragsOf raw)

/-- The dataset table handed to the chart: which columns exist, and the
row cells. -/
structure Frame where
  hasDATA : Bool
  hasANNO : Bool
  hasPREZZO : Bool
  hasLUOGO : Bool
  hasARTISTA : Bool
  hasOPERA : Bool
  rows : List Row
deriving DecidableEq

/-- `t.replace(day=1)` on a timestamp. -/
def replaceDay1 (t : Ts) : Ts := ⟨t.y, t.m, 1, t.sod⟩

/-- `t - pd.Timedelta(hours=25)`, at the one call site of the source
(where `t` is a first-of-month timestamp): field-level timedelta
subtraction, rolling back one or two days into the previous month. -/
def sub25h (t : Ts) : Ts :=
  let s := t.sod - 90000
  let dayShift := s / 86400
  let sod := s - 86400 * dayShift
  let back := t.d + dayShift
  if 1 ≤ back then ⟨t.y, t.m, back, sod⟩
  else if t.m = 1 then ⟨t.y - 1, 12, daysInMonth (t.y - 1) 12 + back, sod⟩
  else ⟨t.y, t.m - 1, daysInMonth t.y (t.m - 1) + back, sod⟩

/-- `t - pd.DateOffset(months=k)`: calendar-aware month subtraction with
day-of-month clamping. -/
def subMonths (k : Int) (t : Ts) : Ts :=
  let mi := 12 * t.y + (t.m - 1) - k
  let y := mi / 12
  let m := mi - 12 * y + 1
  ⟨y, m, min t.d (daysInMonth y m), t.sod⟩

/-- Lines 94–105 of the source: the recency cutoff for a time window,
from the current instant.  `none` models `cutoff = None`. -/
def cutoffOf (time_window : String) (nowTs : Ts) : Option Ts :=
  let base := sub25h (replaceDay1 nowTs)
  if time_window = "last_year" then some (subMonths 12 base)
  else if time_window = "last_3_months" then some (subMonths 3 base)
  else if time_window = "last_month" then some (subMonths 1 base)
  else none

/-- Bucket granularities of the `sum_range` parameter. -/
inductive Freq where
  | day
  | week
  | month
deriving DecidableEq

/-- Lines 159–176 of the source: normalise `sum_range` and pick the
resample frequency (`'D'`, `'W-MON'` or `'MS'`, default `'D'`). -/
def freqOf (sum_range : String) : Freq :=
  let sr := if sum_range = "" then "day" else pyLower (pyStrip sum_range)
  if sr = "day" then .day
  else if sr = "week" then .week
  else if sr = "month" then .month
  else .day

/-- Italian label of the granularity (`sum_range_conv` of the source). -/
def srConv (sum_range : String) : String :=
  let sr := if sum_range = "" then "day" else pyLower (pyStrip sum_range)
  if sr = "day" then "giorno"
  else if sr = "week" then "settimana"
  else if sr = "month" then "mese"
  else "giorno"

/-- Index of the bucket a timestamp falls into: calendar day count for
`'D'`, Monday-aligned week count for `'W-MON'` (left-closed bins), and
month count for `'MS'`. -/
def bucketIdx (f : Freq) (t : Ts) : Int :=
  match f with
  | .day => (tsKey t) / 86400
  | .week => ((tsKey t) / 86400 - 4) / 7
  | .month => 12 * t.y + t.m

/-- Left label (start instant) of the bucket with a given index. -/
def bucketStart (f : Freq) (i : Int) : Ts :=
  match f with
  | .day => fromDays i
  | .week => fromDays (7 * i + 4)
  | .month => ⟨(i - 1) / 12, i - 1 - 12 * ((i - 1) / 12) + 1, 1, 0⟩

/-- Minimum of a nonempty integer list, as a fold. -/
def listMinI (x : Int) (xs : List Int) : Int := xs.foldl min x

/-- Maximum of a nonempty integer list, as a fold. -/
def listMaxI (x : Int) (xs : List Int) : Int := xs.foldl max x

/-- `series.resample(freq, label='left', closed='left').sum()` on a list
of (timestamp, price) points: the contiguous grid of buckets from the
first to the last populated one, each labelled by its start instant and
carrying the sum of the prices binned into it (gaps filled with 0). -/
def resampleSum (f : Freq) (pts : List (Ts × Rat)) : List (Ts × Rat) :=
  match pts with
  | [] => []
  | p0 :: rest =>
      let lo := listMinI (bucketIdx f p0.1) (rest.map (fun p => bucketIdx f p.1))
      let hi := listMaxI (bucketIdx f p0.1) (rest.map (fun p => bucketIdx f p.1))
      (List.range (hi - lo + 1).toNat).map (fun (i : Nat) =>
        (bucketStart f (lo + (i : Int)),
         ((pts.filter (fun p => bucketIdx f p.1 = lo + (i : Int))).map (fun p => p.2)).sum))

/-- Insertion into a list sorted by a boolean "less or equal". -/
def insBy (le : α → α → Bool) (a : α) : List α → List α
  | [] => [a]
  | b :: l => if le a b then a :: b :: l else b :: insBy le a l

/-- Insertion sort by a boolean "less or equal". -/
def sortBy (le : α → α → Bool) (l : List α) : List α := l.foldr (insBy le) []

/-- String order used to model pandas' sorted `groupby` keys. -/
def strLe (a b : String) : Bool := chLe a.data b.data

/-- Lines 183–193 of the source: group the priced records by the sales
location, resample each group, and zero-fill every group across the
sorted union of the bucket labels (`grp.unstack(level=0).fillna(0)`).
Rows with a missing location are dropped by `groupby`. -/
def placeSeries (f : Freq) (good : List (Row × Ts × Rat)) :
    List (String × List (Ts × Rat)) :=
  let keyed := good.filter (fun x => x.1.luogo ≠ Cell.nan)
  let keys := sortBy strLe ((keyed.map (fun x => cellPyStr x.1.luogo)).dedup)
  let seriesOf := fun (g : String) =>
    resampleSum f ((keyed.filter (fun x => cellPyStr x.1.luogo = g)).map (fun x => x.2))
  let allBuckets :=
    sortBy (fun a b => decide (tsKey a ≤ tsKey b))
      (((keys.map (fun g => (seriesOf g).map (fun p => p.1))).flatten).dedup)
  keys.map (fun g =>
    (g, allBuckets.map (fun t =>
      (t, match (seriesOf g).find? (fun p => p.1 = t) with
          | some p => p.2
          | none => 0))))

/-- The observable outcome of one `line_revenue` call: the figure's
title and traces (per-place series and the bold overall series), plus
the diagnostics the function reports (unreadable-date count and sample,
rows dropped for a non-numeric price). -/
structure LineResult where
  title : String
  overall : List (Ts × Rat)
  places : List (String × List (Ts × Rat))
  unreadCount : Nat
  unreadSample : List String
  droppedPrice : Nat
deriving DecidableEq

instance : Inhabited LineResult := ⟨⟨"", [], [], 0, [], 0⟩⟩

/-- A degenerate "no data" figure with a title and no traces. -/
def emptyFig (title : String) : LineResult := ⟨title, [], [], 0, [], 0⟩

/-- Lines 116–120 of the source: one printable sample line
`f"{raw_date} | {artista} | {opera}"`, with `Series.get` defaulting to
`''` for an absent column. -/
def sampleLine (fr : Frame) (r : Row) : String :=
  (if fr.hasDATA then cellPyStr r.data else "") ++ " | " ++
  (if fr.hasARTISTA then cellPyStr r.artista else "") ++ " | " ++
  (if fr.hasOPERA then cellPyStr r.opera else "")

/-- Error-propagating map, modelling `df.apply` with a fallible
per-row function. -/
def exMap (g : α → Except PyErr β) : List α → Except PyErr (List β)
  | [] => .ok []
  | a :: l =>
      match g a with
      | .error e => .error e
      | .ok b =>
          match exMap g l with
          | .error e => .error e
          | .ok bs => .ok (b :: bs)

/-- The row-retention test of line 108 of the source
(`df['_date'] >= cutoff`; a NaT date compares false). -/
def keepRow (c : Ts) (rd : Row × Option Ts) : Bool :=
  match rd.2 with
  | some t => tsKey c ≤ tsKey t
  | none => false

/-- Lines 94–267 of the source: everything `line_revenue` does after the
per-row date parsing succeeded — the recency-window filter, the
unreadable-date diagnostics, the price coercion, the resampling and the
traces.  `rows0` are the rows surviving the `DATA.notna()` filter and
`dates` their parsed `_date` column. -/
def buildResult (fr : Frame) (rows0 : List Row) (dates : List (Option Ts))
    (sum_range time_window : String) (nowTs : Ts) : LineResult :=
  let prs := rows0.zip dates
  -- lines 94–108: recency window filter
  let prs1 :=
    if time_window ≠ "all_time" then
      match cutoffOf time_window nowTs with
      | some c => prs.filter (keepRow c)
      | none => prs
    else prs
  -- lines 110–120: unreadable-date diagnostics
  let unreadRows := prs1.filter (fun rd => rd.2 = none)
  let unreadCount := unreadRows.length
  let unreadSample := (unreadRows.take 20).map (fun rd => sampleLine fr rd.1)
  -- line 125: drop rows without a readable date
  let dgood := prs1.filterMap (fun rd => rd.2.map (fun t => (rd.1, t)))
  if dgood.isEmpty then
    { emptyFig
        ("Nessun dato valido (date parsing fallito)" ++
         (if unreadCount ≠ 0 then
            " — " ++ toString unreadCount ++ " righe non leggibili"
          else "")) with
      unreadCount := unreadCount, unreadSample := unreadSample }
  else
    -- lines 137–142: missing PREZZO column
    if ¬ fr.hasPREZZO then
      { emptyFig "Nessun dato disponibile (colonna PREZZO mancante)" with
        unreadCount := unreadCount, unreadSample := unreadSample }
    else
      -- lines 144–148: numeric price coercion and drop
      let priced := dgood.map (fun rt => (rt.1, rt.2, toNumeric rt.1.prezzo))
      let good := priced.filterMap (fun x =>
        x.2.2.map (fun p => (x.1, x.2.1, p)))
      let droppedPrice := priced.length - good.length
      if good.isEmpty then
        { emptyFig "Nessun dato valido (nessun PREZZO numerico)" with
          unreadCount := unreadCount, unreadSample := unreadSample,
          droppedPrice := droppedPrice }
      else
        -- lines 159–211: resample and build the traces
        let fq := freqOf sum_range
        let pts := good.map (fun x => x.2)
        let overall := resampleSum fq pts
        let places := if fr.hasLUOGO then placeSeries fq good else []
        { title := "Vendite " ++ srConv sum_range ++ " (somma PREZZO)",
          overall := overall, places := places,
          unreadCount := unreadCount, unreadSample := unreadSample,
          droppedPrice := droppedPrice }

/-- Embedding of `line_revenue(_href, df, sum_range, time_window)`
(src/graphs/lineRevenue.py lines 65–267).  The current instant
`pd.Timestamp.now()` is the explicit parameter `nowTs`; an uncaught
Python exception is `Except.error`.  Presentation-only work of the
source (tick labels, layout, colours) is not part of the observable
result. -/
def line_revenue (df : Option Frame) (sum_range : String)
    (time_window : String) (nowTs : Ts) : Except PyErr LineResult :=
  -- line 81: `df = df[df['DATA'].notna()]` runs before the None check;
  -- `None['DATA']` raises TypeError, a missing DATA column KeyError.
  match df with
  | none => .error .typeError
  | some fr =>
      if ¬ fr.hasDATA then .error .keyError
      else
        let rows0 := fr.rows.filter (fun r => r.data ≠ Cell.nan)
        -- line 83: `df is None or df.empty`
        if rows0.isEmpty then .ok (emptyFig "Nessun dato disponibile")
        else
          -- line 92: per-row date parsing
          match exMap (parse_data_anno fr.hasDATA fr.hasANNO) rows0 with
          | .error e => .error e
          | .ok dates => .ok (buildResult fr rows0 dates sum_range time_window nowTs)

/-- The `_date` value of a row as `line_revenue` observes it when the
parsing of the whole column raised no exception. -/
def parseOk (hasDATA hasANNO : Bool) (r : Row) : Option Ts :=
  match parse_data_anno hasDATA hasANNO r with
  | .ok v => v
  | .error _ => none

/-- Whether a resolved date survives the recency-window filter of
lines 94–108 (vacuously true for `all_time` or an unknown window). -/
def windowPass (time_window : String) (nowTs : Ts) (t : Ts) : Bool :=
  if time_window ≠ "all_time" then
    match cutoffOf time_window nowTs with
    | some c => tsKey c ≤ tsKey t
    | none => true
  else true

/-- One row's contribution to the records the chart keeps: its resolved
date and numeric price, when the date resolves, survives the window and
the price coerces. -/
def goodRec (fr : Frame) (time_window : String) (nowTs : Ts) (r : Row) :
    Option (Row × Ts × Rat) :=
  match parseOk fr.hasDATA fr.hasANNO r with
  | some t =>
      if windowPass time_window nowTs t then
        (toNumeric r.prezzo).map (fun p => (r, t, p))
      else none
  | none => none

/-- One row's contribution to the date-good set (before the price
filter). -/
def dateRec (fr : Frame) (time_window : String) (nowTs : Ts) (r : Row) :
    Option (Row × Ts) :=
  match parseOk fr.hasDATA fr.hasANNO r with
  | some t => if windowPass time_window nowTs t then some (r, t) else none
  | none => none

/-- The records the chart keeps, with their resolved date and numeric
price: resolvable date, window survival, coercible price (and a price
column to read it from). -/
def goodOf (fr : Frame) (rows0 : List Row) (time_window : String) (nowTs : Ts) :
    List (Row × Ts × Rat) :=
  if fr.hasPREZZO then rows0.filterMap (goodRec fr time_window nowTs) else []

/-- Sum of the totals of a revenue series. -/
def sumTotals (l : List (Ts × Rat)) : Rat := (l.map (fun p => p.2)).sum

/-- The claim's reference quantity for the conservation property
(spec §8): the prices of exactly those records whose date resolves,
survives the requested window, and whose price coerces to a number. -/
def specEligiblePrices (f : Frame) (time_window : String) (nowTs : Ts) : List Rat :=
  if f.hasPREZZO then
    f.rows.filterMap (fun r =>
      match parseOk f.hasDATA f.hasANNO r with
      | some t => if windowPass time_window nowTs t then toNumeric r.prezzo else none
      | none => none)
  else []

/-- A row with the four cells the chart reads (artist and work title
left missing). -/
def rowD (dc ac pc lc : Cell) : Row := ⟨dc, ac, pc, lc, Cell.nan, Cell.nan⟩

/-- A frame with the full column set. -/
def frameAll (rs : List Row) : Frame := ⟨true, true, true, true, true, true, rs⟩

/-- A frame lacking the `DATA` column. -/
def frameNoDATA : Frame :=
  ⟨false, true, true, true, true, true,
   [rowD (Cell.str "2025-08-31") Cell.nan (Cell.num 10) Cell.nan]⟩

/-- One August sale, resolvable date, numeric price, no location. -/
def augFrame : Frame :=
  frameAll [rowD (Cell.str "2025-08-31") Cell.nan (Cell.num 10) Cell.nan]

/-- A mixed frame used by witnesses: one unparseable date, one August
sale and one September sale (one with a non-numeric price). -/
def mixFrame : Frame :=
  frameAll
    [rowD (Cell.str "bozo") Cell.nan (Cell.num 3) (Cell.str "Roma"),
     rowD (Cell.str "31/08") (Cell.num 2025) (Cell.num 10) (Cell.str "Roma"),
     rowD (Cell.str "2025-09-20") Cell.nan (Cell.num 5) (Cell.str "Milano"),
     rowD (Cell.str "2025-09-21") Cell.nan (Cell.str "dieci") (Cell.str "Milano")]

/-- Epoch day count of the first day of the month with month index `k`
(where the month `(y, m)` has index `12*y + m`). -/
def monthStart (k : Int) : Int :=
  toDays ((k - 1) / 12) ((k - 1) % 12 + 1) 1

/-- A fallback-year cell whose Python `float(...)` conversion is not an
infinity (the condition under which `int(float(...))` cannot raise the
uncaught `OverflowError`). -/
def finiteAnno (c : Cell) : Prop := ∀ b : Bool, pyFloatOfCell c ≠ .ok (.inf b)

/-! ## Theorems -/

theorem zip_map_self (f : α → β) (l : List α) :
    l.zip (l.map f) = l.map (fun a => (a, f a)) := by
  induction l with
  | nil => rfl
  | cons a l ih => simp [ih]

theorem sum_filter_split (p : α → Bool) (v : α → Rat) (l : List α) :
    (l.map v).sum =
      ((l.filter p).map v).sum + ((l.filter (fun a => !(p a))).map v).sum := by
  induction l with
  | nil => simp
  | cons a l ih =>
      by_cases h : p a = true
      · simp [List.filter_cons, h, ih]; ring
      · simp only [Bool.not_eq_true] at h
        simp [List.filter_cons, h, ih]; ring

theorem filter_erase_other (g : α → Int) (k k' : Int) (hkk : k' ≠ k) (l : List α) :
    l.filter (fun a => g a = k') =
      (l.filter (fun a => !(g a = k))).filter (fun a => g a = k') := by
  induction l with
  | nil => rfl
  | cons a l ih =>
      have hkk2 : ¬ (k = k') := fun hh => hkk hh.symm
      have hkk3 : ¬ (k' = k) := hkk
      by_cases h2 : g a = k
      · have h1 : ¬ (g a = k') := by omega
        simp [List.filter_cons, h1, h2, hkk2, hkk3, ih]
      · by_cases h1 : g a = k'
        · simp [List.filter_cons, h1, h2, hkk2, hkk3, ih]
        · simp [List.filter_cons, h1, h2, hkk2, hkk3, ih]

theorem partition_sum (g : α → Int) (v : α → Rat) :
    ∀ (ks : List Int) (l : List α), ks.Nodup → (∀ a ∈ l, g a ∈ ks) →
      (ks.map (fun k => ((l.filter (fun a => g a = k)).map v).sum)).sum =
        (l.map v).sum := by
  intro ks
  induction ks with
  | nil =>
      intro l _ hcov
      have hl : l = [] := by
        cases l with
        | nil => rfl
        | cons a l => exact absurd (hcov a (by simp)) (by simp)
      simp [hl]
  | cons k ks ih =>
      intro l hnd hcov
      have hk : k ∉ ks := (List.nodup_cons.mp hnd).1
      have hnd' : ks.Nodup := (List.nodup_cons.mp hnd).2
      have hmapeq :
          ks.map (fun k' => ((l.filter (fun a => g a = k')).map v).sum) =
            ks.map (fun k' =>
              (((l.filter (fun a => !(g a = k))).filter (fun a => g a = k')).map v).sum) := by
        apply List.map_congr_left
        intro k' hk'
        have hkk : k' ≠ k := fun h => hk (h ▸ hk')
        rw [← filter_erase_other g k k' hkk l]
      have hcov' : ∀ a ∈ l.filter (fun a => !(g a = k)), g a ∈ ks := by
        intro a ha
        have hm := List.mem_of_mem_filter ha
        have hpf := List.of_mem_filter ha
        have : ¬ (g a = k) := by simpa using hpf
        have := hcov a hm
        simp only [List.mem_cons] at this
        tauto
      calc
        (((k :: ks)).map (fun k' => ((l.filter (fun a => g a = k')).map v).sum)).sum
            = ((l.filter (fun a => g a = k)).map v).sum +
              (ks.map (fun k' => ((l.filter (fun a => g a = k')).map v).sum)).sum := by
              simp
        _ = ((l.filter (fun a => g a = k)).map v).sum +
              ((l.filter (fun a => !(g a = k))).map v).sum := by
              rw [hmapeq, ih (l.filter (fun a => !(g a = k))) hnd' hcov']
        _ = (l.map v).sum := (sum_filter_split (fun a => g a = k) v l).symm

theorem listMinI_spec (xs : List Int) :
    ∀ x : Int, listMinI x xs ≤ x ∧ ∀ a ∈ xs, listMinI x xs ≤ a := by
  induction xs with
  | nil => exact fun x => ⟨le_refl x, fun a h => absurd h (List.not_mem_nil a)⟩
  | cons b xs ih =>
      intro x
      have step : listMinI x (b :: xs) = listMinI (min x b) xs := rfl
      obtain ⟨h1, h2⟩ := ih (min x b)
      refine ⟨?_, ?_⟩
      · rw [step]; exact le_trans h1 (min_le_left x b)
      · intro a ha
        rcases List.mem_cons.mp ha with rfl | hm
        · rw [step]; exact le_trans h1 (min_le_right x a)
        · rw [step]; exact h2 a hm

theorem listMaxI_spec (xs : List Int) :
    ∀ x : Int, x ≤ listMaxI x xs ∧ ∀ a ∈ xs, a ≤ listMaxI x xs := by
  induction xs with
  | nil => exact fun x => ⟨le_refl x, fun a h => absurd h (List.not_mem_nil a)⟩
  | cons b xs ih =>
      intro x
      have step : listMaxI x (b :: xs) = listMaxI (max x b) xs := rfl
      obtain ⟨h1, h2⟩ := ih (max x b)
      refine ⟨?_, ?_⟩
      · rw [step]; exact le_trans (le_max_left x b) h1
      · intro a ha
        rcases List.mem_cons.mp ha with rfl | hm
        · rw [step]; exact le_trans (le_max_right x a) h1
        · rw [step]; exact h2 a hm

theorem listMinI_attained (xs : List Int) :
    ∀ x : Int, listMinI x xs = x ∨ listMinI x xs ∈ xs := by
  induction xs with
  | nil => intro x; exact Or.inl rfl
  | cons b xs ih =>
      intro x
      have step : listMinI x (b :: xs) = listMinI (min x b) xs := rfl
      rcases ih (min x b) with h | h
      · rcases le_total x b with hxb | hbx
        · left; rw [step, h, min_eq_left hxb]
        · right; rw [step, h, min_eq_right hbx]; exact List.mem_cons_self b xs
      · right; rw [step]; exact List.mem_cons_of_mem b h

theorem range_partition_sum {α : Type} (g : α → Int) (v : α → Rat) (lo hi : Int)
    (l : List α) (hb : ∀ a ∈ l, lo ≤ g a ∧ g a ≤ hi) :
    ((List.range (hi - lo + 1).toNat).map
      (fun (i : Nat) => ((l.filter (fun a => g a = lo + (i : Int))).map v).sum)).sum =
      (l.map v).sum := by
  have hfn :
      (fun i : Nat => ((l.filter (fun a => g a = lo + (i : Int))).map v).sum) =
        (fun k : Int => ((l.filter (fun a => g a = k)).map v).sum) ∘
          (fun i : Nat => lo + (i : Int)) := rfl
  rw [hfn, ← List.map_map]
  apply partition_sum g v
  · apply List.Nodup.map
    · intro i j hij
      simpa using hij
    · exact List.nodup_range _
  · intro a ha
    rcases hb a ha with ⟨h1, h2⟩
    have hex : ∃ i : Nat, i < (hi - lo + 1).toNat ∧ lo + (i : Int) = g a :=
      ⟨(g a - lo).toNat, by omega, by omega⟩
    rcases hex with ⟨i, hi1, hi2⟩
    exact List.mem_map.mpr ⟨i, List.mem_range.mpr hi1, hi2⟩

theorem resampleSum_sum (f : Freq) (pts : List (Ts × Rat)) :
    sumTotals (resampleSum f pts) = (pts.map (fun p => p.2)).sum := by
  match pts with
  | [] => rfl
  | p0 :: rest =>
      unfold resampleSum sumTotals
      rw [List.map_map]
      generalize bucketStart f = S
      generalize hBdef : bucketIdx f = B
      have hbound : ∀ p ∈ p0 :: rest,
          listMinI (B p0.1) (rest.map (fun p => B p.1)) ≤ B p.1 ∧
          B p.1 ≤ listMaxI (B p0.1) (rest.map (fun p => B p.1)) := by
        intro p hp
        rcases List.mem_cons.mp hp with rfl | h
        · exact ⟨(listMinI_spec _ _).1, (listMaxI_spec _ _).1⟩
        · exact ⟨(listMinI_spec _ _).2 _ (List.mem_map_of_mem _ h),
                 (listMaxI_spec _ _).2 _ (List.mem_map_of_mem _ h)⟩
      exact range_partition_sum (fun p => B p.1) (fun p => p.2)
        (listMinI (B p0.1) (rest.map (fun p => B p.1)))
        (listMaxI (B p0.1) (rest.map (fun p => B p.1)))
        (p0 :: rest) hbound

theorem resampleSum_mem (f : Freq) (pts : List (Ts × Rat)) (tq : Ts × Rat)
    (h : tq ∈ resampleSum f pts) :
    ∃ j : Int, tq.1 = bucketStart f j ∧ ∃ p ∈ pts, bucketIdx f p.1 ≤ j := by
  match pts with
  | [] => cases h
  | p0 :: rest =>
      unfold resampleSum at h
      rcases List.mem_map.mp h with ⟨i, _, hpair⟩
      refine ⟨listMinI (bucketIdx f p0.1) (rest.map (fun p => bucketIdx f p.1)) + (i : Int),
              ?_, ?_⟩
      · rw [← hpair]
      · rcases listMinI_attained (rest.map (fun p => bucketIdx f p.1)) (bucketIdx f p0.1)
          with hat | hat
        · exact ⟨p0, by simp, by omega⟩
        · rcases List.mem_map.mp hat with ⟨p, hp, hgp⟩
          refine ⟨p, List.mem_cons_of_mem p0 hp, ?_⟩
          have hgp2 : bucketIdx f p.1 =
              listMinI (bucketIdx f p0.1) (rest.map (fun p => bucketIdx f p.1)) := hgp
          omega

theorem daysInMonth_bounds (y m : Int) : 28 ≤ daysInMonth y m ∧ daysInMonth y m ≤ 31 := by
  unfold daysInMonth
  split
  · split <;> omega
  · split <;> omega

theorem toDays_day (y m d : Int) : toDays y m d = toDays y m 1 + d - 1 := by
  simp only [toDays]
  by_cases hm : m ≤ 2
  · simp only [if_pos hm]; omega
  · simp only [if_neg hm]; omega

theorem monthStart_eq (y m : Int) (h1 : 1 ≤ m) (h2 : m ≤ 12) :
    monthStart (12 * y + m) = toDays y m 1 := by
  unfold monthStart
  rw [show (12 * y + m - 1) / 12 = y by omega,
      show (12 * y + m - 1) % 12 + 1 = m by omega]

theorem toDays_month_step (y m : Int) (h1 : 1 ≤ m) (h2 : m ≤ 11) :
    toDays y m 1 + daysInMonth y m = toDays y (m + 1) 1 := by
  rcases (show m = 1 ∨ m = 2 ∨ m = 3 ∨ m = 4 ∨ m = 5 ∨ m = 6 ∨ m = 7 ∨ m = 8 ∨
      m = 9 ∨ m = 10 ∨ m = 11 by omega) with
    rfl | rfl | rfl | rfl | rfl | rfl | rfl | rfl | rfl | rfl | rfl <;>
    (simp only [toDays, daysInMonth, isLeap]; split_ifs <;>
      first
      | omega
      | (exfalso; simp_all))

theorem toDays_dec_step (y : Int) :
    toDays y 12 1 + daysInMonth y 12 = toDays (y + 1) 1 1 := by
  simp only [toDays, daysInMonth, isLeap]
  split_ifs <;> omega

theorem monthStart_succ (k : Int) :
    monthStart (k + 1) =
      monthStart k + daysInMonth ((k - 1) / 12) ((k - 1) % 12 + 1) := by
  by_cases hm : (k - 1) % 12 = 11
  · unfold monthStart
    rw [show (k + 1 - 1) / 12 = (k - 1) / 12 + 1 by omega,
        show (k + 1 - 1) % 12 + 1 = 1 by omega,
        show (k - 1) % 12 + 1 = 12 by omega]
    have hstep := toDays_dec_step ((k - 1) / 12)
    omega
  · unfold monthStart
    rw [show (k + 1 - 1) / 12 = (k - 1) / 12 by omega,
        show (k + 1 - 1) % 12 + 1 = ((k - 1) % 12 + 1) + 1 by omega]
    have hstep := toDays_month_step ((k - 1) / 12) ((k - 1) % 12 + 1) (by omega) (by omega)
    omega

theorem monthStart_mono (k1 k2 : Int) (h : k1 ≤ k2) : monthStart k1 ≤ monthStart k2 := by
  refine @Int.le_induction (fun n => monthStart k1 ≤ monthStart n) k1 (le_refl _) ?_ k2 h
  intro n _ hn
  rw [monthStart_succ n]
  have hb := daysInMonth_bounds ((n - 1) / 12) ((n - 1) % 12 + 1)
  omega

theorem toDays_lt (y1 m1 d1 y2 m2 d2 : Int)
    (hm1 : 1 ≤ m1) (hm12 : m1 ≤ 12) (hm2 : 1 ≤ m2) (hm22 : m2 ≤ 12)
    (hd1 : d1 ≤ daysInMonth y1 m1) (hd2 : 1 ≤ d2)
    (hlt : 12 * y1 + m1 < 12 * y2 + m2) :
    toDays y1 m1 d1 < toDays y2 m2 d2 := by
  have e1 : toDays y1 m1 d1 = toDays y1 m1 1 + d1 - 1 := toDays_day _ _ _
  have e2 : toDays y2 m2 d2 = toDays y2 m2 1 + d2 - 1 := toDays_day _ _ _
  have e3 : monthStart (12 * y1 + m1) = toDays y1 m1 1 := monthStart_eq y1 m1 hm1 hm12
  have e4 : monthStart (12 * y2 + m2) = toDays y2 m2 1 := monthStart_eq y2 m2 hm2 hm22
  have e5 : monthStart (12 * y1 + m1 + 1) =
      monthStart (12 * y1 + m1) +
        daysInMonth ((12 * y1 + m1 - 1) / 12) ((12 * y1 + m1 - 1) % 12 + 1) :=
    monthStart_succ _
  have e6 : (12 * y1 + m1 - 1) / 12 = y1 := by omega
  have e7 : (12 * y1 + m1 - 1) % 12 + 1 = m1 := by omega
  rw [e6, e7] at e5
  have e8 : monthStart (12 * y1 + m1 + 1) ≤ monthStart (12 * y2 + m2) :=
    monthStart_mono _ _ (by omega)
  omega

theorem bucketIdx_mono (fq : Freq) (t1 t2 : Ts) (h1 : t1.Valid) (h2 : t2.Valid)
    (hk : tsKey t1 ≤ tsKey t2) : bucketIdx fq t1 ≤ bucketIdx fq t2 := by
  cases fq with
  | day => simp only [bucketIdx]; omega
  | week => simp only [bucketIdx]; omega
  | month =>
      simp only [bucketIdx]
      by_contra hcon
      push_neg at hcon
      obtain ⟨hm1a, hm1b, hd1a, hd1b, hs1a, hs1b⟩ := h1
      obtain ⟨hm2a, hm2b, hd2a, hd2b, hs2a, hs2b⟩ := h2
      have hlt : toDays t2.y t2.m t2.d < toDays t1.y t1.m t1.d :=
        toDays_lt t2.y t2.m t2.d t1.y t1.m t1.d hm2a hm2b hm1a hm1b hd2b hd1a (by omega)
      unfold tsKey at hk
      omega

theorem replaceDay1_valid (t : Ts) (h : t.Valid) : (replaceDay1 t).Valid := by
  obtain ⟨hm1, hm2, hd1, hd2, hs1, hs2⟩ := h
  have hb := daysInMonth_bounds t.y t.m
  simp only [replaceDay1, Ts.Valid]
  omega

theorem sub25h_valid (t : Ts) (h : t.Valid) : (sub25h t).Valid := by
  obtain ⟨hm1, hm2, hd1, hd2, hs1, hs2⟩ := h
  have hb1 := daysInMonth_bounds (t.y - 1) 12
  have hb2 := daysInMonth_bounds t.y (t.m - 1)
  have hb3 := daysInMonth_bounds t.y t.m
  simp only [sub25h, Ts.Valid]
  split_ifs <;> (dsimp only; omega)

theorem subMonths_valid (k : Int) (t : Ts) (h : t.Valid) : (subMonths k t).Valid := by
  obtain ⟨hm1, hm2, hd1, hd2, hs1, hs2⟩ := h
  have hb := daysInMonth_bounds ((12 * t.y + (t.m - 1) - k) / 12)
    (12 * t.y + (t.m - 1) - k - 12 * ((12 * t.y + (t.m - 1) - k) / 12) + 1)
  simp only [subMonths, Ts.Valid]
  omega

theorem cutoffOf_valid (tw : String) (nowTs c : Ts) (h : nowTs.Valid)
    (hc : cutoffOf tw nowTs = some c) : c.Valid := by
  have hbase : (sub25h (replaceDay1 nowTs)).Valid :=
    sub25h_valid _ (replaceDay1_valid _ h)
  unfold cutoffOf at hc
  split_ifs at hc
  all_goals (cases hc; exact subMonths_valid _ _ hbase)

theorem rowCell_cases (p : Bool) (c : Cell) :
    rowCell p c = .ok c ∨ rowCell p c = .error .keyError := by
  unfold rowCell
  split
  · exact Or.inl rfl
  · exact Or.inr rfl

theorem pyInt_cases (s : String) :
    (∃ n, pyInt s = .ok n) ∨ pyInt s = .error .valueError := by
  unfold pyInt
  dsimp only
  split_ifs <;> dsimp only <;> split
  all_goals first
    | exact Or.inl ⟨_, rfl⟩
    | exact Or.inr rfl

theorem pyFloatOfString_cases (s : String) :
    (∃ v, pyFloatOfString s = .ok v) ∨ pyFloatOfString s = .error .valueError := by
  unfold pyFloatOfString
  dsimp only
  split_ifs
  · exact Or.inl ⟨_, rfl⟩
  · exact Or.inl ⟨_, rfl⟩
  · exact Or.inl ⟨_, rfl⟩
  · split
    · exact Or.inl ⟨_, rfl⟩
    · exact Or.inr rfl

theorem pyFloatOfCell_cases (c : Cell) :
    (∃ v, pyFloatOfCell c = .ok v) ∨ pyFloatOfCell c = .error .valueError := by
  cases c with
  | nan => exact Or.inl ⟨_, rfl⟩
  | num q => exact Or.inl ⟨_, rfl⟩
  | str s => exact pyFloatOfString_cases s

theorem mkTimestamp_cases (y m d : Int) :
    (∃ t, mkTimestamp y m d = .ok t) ∨ mkTimestamp y m d = .error .valueError := by
  unfold mkTimestamp
  split
  · exact Or.inl ⟨_, rfl⟩
  · exact Or.inr rfl

theorem mkTimestamp_valid (y m d : Int) (t : Ts) (h : mkTimestamp y m d = .ok t) :
    t.Valid := by
  unfold mkTimestamp at h
  split at h
  · rename_i hok
    cases h
    simp only [calOk, Bool.and_eq_true, decide_eq_true_eq] at hok
    unfold Ts.Valid
    dsimp only
    obtain ⟨⟨hc, _⟩, _⟩ := hok
    refine ⟨by omega, by omega, by omega, by omega, by omega, by omega⟩
  · cases h

theorem annoYear_cases (hA : Bool) (c : Cell) (hfin : finiteAnno c) :
    ∃ y?, annoYear hA c = .ok y? := by
  unfold annoYear
  rcases rowCell_cases hA c with hrc | hrc <;>
    rw [hrc] <;> dsimp only [bind, Except.bind]
  · rcases pyFloatOfCell_cases c with ⟨v, hv⟩ | hv <;>
      rw [hv] <;> dsimp only [bind, Except.bind]
    · cases v with
      | nan => exact ⟨none, rfl⟩
      | inf b => exact absurd hv (by simpa using hfin b)
      | val q => exact ⟨some (q.num.tdiv q.den), rfl⟩
    · exact ⟨none, rfl⟩
  · exact ⟨none, rfl⟩

theorem fragCascade_cases (hA : Bool) (anno : Cell) (parts : List String)
    (hfin : finiteAnno anno) :
    ∃ v, fragCascade hA anno parts = .ok v := by
  unfold fragCascade
  match parts with
  | [] => exact ⟨none, rfl⟩
  | [p0] => exact ⟨none, rfl⟩
  | p0 :: p1 :: p2 :: p3 :: ps => exact ⟨none, rfl⟩
  | [p0, p1] =>
      dsimp only [bind, Except.bind]
      rcases pyInt_cases p0 with ⟨d0, hd0⟩ | hd0 <;> rw [hd0] <;> dsimp only
      · rcases pyInt_cases p1 with ⟨m0, hm0⟩ | hm0 <;> rw [hm0] <;> dsimp only
        · obtain ⟨y?, hy⟩ := annoYear_cases hA anno hfin
          rw [hy]
          dsimp only
          cases y? with
          | some yv =>
              dsimp only
              rcases mkTimestamp_cases yv m0 d0 with ⟨t, ht⟩ | ht <;> rw [ht] <;>
                exact ⟨_, rfl⟩
          | none => exact ⟨none, rfl⟩
        · exact ⟨none, rfl⟩
      · exact ⟨none, rfl⟩
  | [p0, p1, p2] =>
      dsimp only [bind, Except.bind]
      rcases pyInt_cases p0 with ⟨d0, hd0⟩ | hd0 <;> rw [hd0] <;> dsimp only
      · rcases pyInt_cases p1 with ⟨m0, hm0⟩ | hm0 <;> rw [hm0] <;> dsimp only
        · by_cases hlen : p2.length > 2
          · rw [if_pos hlen]
            rcases pyInt_cases p2 with ⟨y0, hy0⟩ | hy0 <;> rw [hy0] <;>
              dsimp only [pure, Except.pure]
            · rcases mkTimestamp_cases y0 m0 d0 with ⟨t, ht⟩ | ht <;> rw [ht] <;>
                exact ⟨_, rfl⟩
            · exact ⟨none, rfl⟩
          · rw [if_neg hlen]
            rcases pyInt_cases p2 with ⟨y0, hy0⟩ | hy0 <;> rw [hy0] <;>
              dsimp only [pure, Except.pure]
            · rcases mkTimestamp_cases (2000 + y0) m0 d0 with ⟨t, ht⟩ | ht <;> rw [ht] <;>
                exact ⟨_, rfl⟩
            · exact ⟨none, rfl⟩
        · exact ⟨none, rfl⟩
      · exact ⟨none, rfl⟩

theorem timeSod_bounds (tstr : String) (s : Int) (h : timeSod tstr = some s) :
    0 ≤ s ∧ s < 86400 := by
  unfold timeSod at h
  split at h <;>
    first
    | (rename_i hcond
       simp only [Bool.and_eq_true, decide_eq_true_eq] at hcond
       cases h <;> omega)
    | (split at h <;>
        first
        | (rename_i hcond
           simp only [Bool.and_eq_true, decide_eq_true_eq] at hcond
           cases h <;> omega)
        | cases h)
    | cases h

theorem pdToDatetime_valid (raw : String) (t : Ts) (h : pdToDatetime raw = some t) :
    t.Valid := by
  unfold pdToDatetime at h
  simp only [Option.map] at h
  split at h
  · cases h
  · rename_i dstr sod heq
    split at h
    · split at h
      · rename_i hok
        cases h
        simp only [calOk, Bool.and_eq_true, decide_eq_true_eq] at hok
        unfold Ts.Valid
        dsimp only
        split at heq
        · cases heq
          omega
        · split at heq
          · cases heq
            rename_i heq2
            have hs := timeSod_bounds _ _ heq2
            omega
          · cases heq
        · cases heq
      · cases h
    · cases h

theorem fragCascade_valid (hA : Bool) (anno : Cell) (parts : List String) (t : Ts)
    (h : fragCascade hA anno parts = .ok (some t)) : t.Valid := by
  unfold fragCascade at h
  match parts with
  | [] => dsimp only [pure, Except.pure] at h; simp at h
  | [p0] => dsimp only [pure, Except.pure] at h; simp at h
  | p0 :: p1 :: p2 :: p3 :: ps => dsimp only [pure, Except.pure] at h; simp at h
  | [p0, p1] =>
      dsimp only [bind, Except.bind] at h
      rcases pyInt_cases p0 with ⟨d0, hd0⟩ | hd0 <;> rw [hd0] at h <;> dsimp only at h
      · rcases pyInt_cases p1 with ⟨m0, hm0⟩ | hm0 <;> rw [hm0] at h <;> dsimp only at h
        · cases hann : annoYear hA anno with
          | ok y? =>
              rw [hann] at h
              dsimp only at h
              cases y? with
              | some yv =>
                  dsimp only at h
                  rcases mkTimestamp_cases yv m0 d0 with ⟨t2, ht⟩ | ht <;> rw [ht] at h <;>
                    dsimp only [pure, Except.pure] at h
                  · injection h with h1
                    injection h1 with h2
                    subst h2
                    exact mkTimestamp_valid _ _ _ _ ht
                  · simp at h
              | none => dsimp only [pure, Except.pure] at h; simp at h
          | error e =>
              rw [hann] at h
              cases e <;> dsimp only at h <;> simp at h
        · simp at h
      · simp at h
  | [p0, p1, p2] =>
      dsimp only [bind, Except.bind] at h
      rcases pyInt_cases p0 with ⟨d0, hd0⟩ | hd0 <;> rw [hd0] at h <;> dsimp only at h
      · rcases pyInt_cases p1 with ⟨m0, hm0⟩ | hm0 <;> rw [hm0] at h <;> dsimp only at h
        · by_cases hlen : p2.length > 2
          · rw [if_pos hlen] at h
            rcases pyInt_cases p2 with ⟨y0, hy0⟩ | hy0 <;> rw [hy0] at h <;>
              dsimp only [pure, Except.pure] at h
            · rcases mkTimestamp_cases y0 m0 d0 with ⟨t2, ht⟩ | ht <;> rw [ht] at h <;>
                dsimp only [pure, Except.pure] at h
              · injection h with h1
                injection h1 with h2
                subst h2
                exact mkTimestamp_valid _ _ _ _ ht
              · simp at h
            · simp at h
          · rw [if_neg hlen] at h
            rcases pyInt_cases p2 with ⟨y0, hy0⟩ | hy0 <;> rw [hy0] at h <;>
              dsimp only [pure, Except.pure] at h
            · rcases mkTimestamp_cases (2000 + y0) m0 d0 with ⟨t2, ht⟩ | ht <;> rw [ht] at h <;>
                dsimp only [pure, Except.pure] at h
              · injection h with h1
                injection h1 with h2
                subst h2
                exact mkTimestamp_valid _ _ _ _ ht
              · simp at h
            · simp at h
        · simp at h
      · simp at h

theorem parse_data_anno_valid (hD hA : Bool) (row : Row) (t : Ts)
    (h : parse_data_anno hD hA row = .ok (some t)) : t.Valid := by
  unfold parse_data_anno at h
  rcases rowCell_cases hD row.data with hrc | hrc <;> rw [hrc] at h <;>
    dsimp only [Except.map] at h
  · split_ifs at h
    · simp at h
    · split at h
      · rename_i dt hdt
        injection h with h1
        injection h1 with h2
        subst h2
        exact pdToDatetime_valid _ _ hdt
      · exact fragCascade_valid _ _ _ _ h
  · simp at h

theorem parse_data_anno_total (hD hA : Bool) (row : Row) (hfin : finiteAnno row.anno) :
    ∃ v, parse_data_anno hD hA row = .ok v := by
  unfold parse_data_anno
  rcases rowCell_cases hD row.data with hrc | hrc <;> rw [hrc] <;>
    dsimp only [Except.map]
  · split_ifs
    · exact ⟨none, rfl⟩
    · split
      · exact ⟨_, rfl⟩
      · exact fragCascade_cases hA row.anno _ hfin
  · exact ⟨none, rfl⟩

theorem parseOk_eq_some (hD hA : Bool) (r : Row) (t : Ts) :
    parseOk hD hA r = some t ↔ parse_data_anno hD hA r = .ok (some t) := by
  unfold parseOk
  cases hp : parse_data_anno hD hA r with
  | ok v => simp
  | error e => simp

theorem parseOk_valid (hD hA : Bool) (r : Row) (t : Ts) (h : parseOk hD hA r = some t) :
    t.Valid :=
  parse_data_anno_valid hD hA r t ((parseOk_eq_some hD hA r t).mp h)

theorem exMap_ok_map {α β : Type} (g : α → Except PyErr β) (f : α → β)
    (hgf : ∀ a b, g a = .ok b → b = f a) :
    ∀ (l : List α) (ds : List β), exMap g l = .ok ds → ds = l.map f := by
  intro l
  induction l with
  | nil =>
      intro ds h
      unfold exMap at h
      cases h
      rfl
  | cons a l ih =>
      intro ds h
      unfold exMap at h
      cases hga : g a with
      | error e => rw [hga] at h; cases h
      | ok b =>
          rw [hga] at h
          dsimp only at h
          cases hl : exMap g l with
          | error e => rw [hl] at h; cases h
          | ok bs =>
              rw [hl] at h
              dsimp only at h
              cases h
              rw [List.map_cons, ← ih bs hl, hgf a b hga]

theorem parse_ok_parseOk (hD hA : Bool) (r : Row) (v : Option Ts)
    (h : parse_data_anno hD hA r = .ok v) : v = parseOk hD hA r := by
  unfold parseOk
  rw [h]

theorem parseOk_nan (hD hA : Bool) (r : Row) (hr : r.data = Cell.nan) :
    parseOk hD hA r = none := by
  cases hD
  · rfl
  · unfold parseOk parse_data_anno
    rw [hr]
    rfl

theorem filterMap_of_map {α β γ : Type} (f : α → β) (g : β → Option γ) (l : List α) :
    (l.map f).filterMap g = l.filterMap (fun a => g (f a)) := by
  induction l with
  | nil => rfl
  | cons a l ih => cases h : g (f a) <;> simp [List.filterMap_cons, h, ih]

theorem filterMap_of_filter {α γ : Type} (p : α → Bool) (g : α → Option γ) (l : List α) :
    (l.filter p).filterMap g = l.filterMap (fun a => if p a then g a else none) := by
  induction l with
  | nil => rfl
  | cons a l ih =>
      by_cases hp : p a = true
      · simp only [List.filter_cons, hp, if_true, List.filterMap_cons, ih]
      · simp only [Bool.not_eq_true] at hp
        simp only [List.filter_cons, hp, Bool.false_eq_true, if_false, List.filterMap_cons, ih]

theorem filterMap_comp {α β γ : Type} (f : α → Option β) (g : β → Option γ) (l : List α) :
    (l.filterMap f).filterMap g = l.filterMap (fun a => (f a).bind g) := by
  induction l with
  | nil => rfl
  | cons a l ih =>
      cases hf : f a with
      | none => simp [List.filterMap_cons, hf, ih, Option.bind]
      | some b => cases hg : g b <;> simp [List.filterMap_cons, hf, hg, ih, Option.bind]

theorem map_of_filterMap {α β γ : Type} (f : α → Option β) (g : β → γ) (l : List α) :
    (l.filterMap f).map g = l.filterMap (fun a => (f a).map g) := by
  induction l with
  | nil => rfl
  | cons a l ih => cases hf : f a <;> simp [List.filterMap_cons, hf, ih]

theorem filterMap_congr' {α β : Type} (f g : α → Option β) (l : List α)
    (h : ∀ a ∈ l, f a = g a) : l.filterMap f = l.filterMap g := by
  induction l with
  | nil => rfl
  | cons a l ih =>
      rw [List.filterMap_cons, List.filterMap_cons, h a (by simp),
          ih (fun a ha => h a (List.mem_cons_of_mem _ ha))]

theorem filterMap_of_absorbed {α γ : Type} (p : α → Bool) (g : α → Option γ) (l : List α)
    (h : ∀ a, p a = false → g a = none) :
    (l.filter p).filterMap g = l.filterMap g := by
  induction l with
  | nil => rfl
  | cons a l ih =>
      by_cases hp : p a = true
      · simp only [List.filter_cons, hp, if_true, List.filterMap_cons, ih]
      · simp only [Bool.not_eq_true] at hp
        simp only [List.filter_cons, hp, Bool.false_eq_true, if_false, ih,
          List.filterMap_cons, h a hp]

theorem filter_filter_nil {α : Type} (p q : α → Bool) (l : List α)
    (h : ∀ a, p a = true → q a = false) :
    (l.filter p).filter q = [] := by
  induction l with
  | nil => rfl
  | cons a l ih =>
      by_cases hp : p a = true
      · simp only [List.filter_cons, hp, if_true, List.filter_cons, h a hp,
          Bool.false_eq_true, if_false, ih]
      · simp only [Bool.not_eq_true] at hp
        simp only [List.filter_cons, hp, Bool.false_eq_true, if_false, ih]

theorem windowPass_all_time (nowTs : Ts) (t : Ts) :
    windowPass "all_time" nowTs t = true := by
  unfold windowPass
  rw [if_neg]
  simp

theorem windowPass_no_cutoff (tw : String) (nowTs : Ts) (t : Ts)
    (hta : tw ≠ "all_time") (hc : cutoffOf tw nowTs = none) :
    windowPass tw nowTs t = true := by
  unfold windowPass
  rw [if_pos hta, hc]

theorem windowPass_cutoff (tw : String) (nowTs : Ts) (t : Ts) (c : Ts)
    (hta : tw ≠ "all_time") (hc : cutoffOf tw nowTs = some c) :
    windowPass tw nowTs t = decide (tsKey c ≤ tsKey t) := by
  unfold windowPass
  rw [if_pos hta, hc]

theorem goodRec_none_of_dateRec (fr : Frame) (tw : String) (nowTs : Ts) (r : Row)
    (h : dateRec fr tw nowTs r = none) : goodRec fr tw nowTs r = none := by
  unfold dateRec at h
  unfold goodRec
  cases hp : parseOk fr.hasDATA fr.hasANNO r with
  | none => rfl
  | some t =>
      rw [hp] at h
      dsimp only at h ⊢
      by_cases hw : windowPass tw nowTs t = true
      · rw [if_pos hw] at h
        cases h
      · rw [if_neg hw]

theorem mem_insBy {α : Type} (le : α → α → Bool) (x a : α) (l : List α)
    (h : a ∈ insBy le x l) : a = x ∨ a ∈ l := by
  induction l with
  | nil => simpa [insBy] using h
  | cons b l ih =>
      unfold insBy at h
      by_cases hle : le x b = true
      · rw [if_pos hle] at h
        rcases List.mem_cons.mp h with rfl | h2
        · exact Or.inl rfl
        · exact Or.inr h2
      · rw [if_neg hle] at h
        rcases List.mem_cons.mp h with rfl | h2
        · exact Or.inr (List.mem_cons_self _ _)
        · rcases ih h2 with h3 | h3
          · exact Or.inl h3
          · exact Or.inr (List.mem_cons_of_mem _ h3)

theorem mem_sortBy {α : Type} (le : α → α → Bool) (a : α) (l : List α)
    (h : a ∈ sortBy le l) : a ∈ l := by
  unfold sortBy at h
  induction l with
  | nil => simpa using h
  | cons b l ih =>
      rw [List.foldr_cons] at h
      rcases mem_insBy le b a _ h with rfl | h2
      · exact List.mem_cons_self _ _
      · exact List.mem_cons_of_mem _ (ih h2)

theorem goodRec_eq_bind (fr : Frame) (tw : String) (nowTs : Ts) (r : Row) :
    goodRec fr tw nowTs r =
      (dateRec fr tw nowTs r).bind
        (fun rt => (toNumeric rt.1.prezzo).map (fun p => (rt.1, rt.2, p))) := by
  unfold goodRec dateRec
  cases parseOk fr.hasDATA fr.hasANNO r with
  | none => rfl
  | some t =>
      dsimp only
      by_cases hw : windowPass tw nowTs t = true
      · rw [if_pos hw, if_pos hw]
        rfl
      · rw [if_neg hw, if_neg hw]
        rfl

theorem goodRec_some (fr : Frame) (tw : String) (nowTs : Ts) (r : Row)
    (x : Row × Ts × Rat) (h : goodRec fr tw nowTs r = some x) :
    parseOk fr.hasDATA fr.hasANNO r = some x.2.1 ∧ windowPass tw nowTs x.2.1 = true := by
  unfold goodRec at h
  cases hp : parseOk fr.hasDATA fr.hasANNO r with
  | none => rw [hp] at h; cases h
  | some t =>
      rw [hp] at h
      dsimp only at h
      by_cases hw : windowPass tw nowTs t = true
      · rw [if_pos hw] at h
        cases hn : toNumeric r.prezzo with
        | none => rw [hn] at h; cases h
        | some p =>
            rw [hn] at h
            cases h
            dsimp only
            exact ⟨rfl, hw⟩
      · rw [if_neg hw] at h
        cases h

theorem dgood_eq (fr : Frame) (rows0 : List Row) (tw : String) (nowTs : Ts) :
    ((if tw ≠ "all_time" then
        match cutoffOf tw nowTs with
        | some c =>
            (rows0.zip (rows0.map (parseOk fr.hasDATA fr.hasANNO))).filter (keepRow c)
        | none => rows0.zip (rows0.map (parseOk fr.hasDATA fr.hasANNO))
      else rows0.zip (rows0.map (parseOk fr.hasDATA fr.hasANNO)))).filterMap
        (fun rd => rd.2.map (fun t => (rd.1, t))) =
      rows0.filterMap (dateRec fr tw nowTs) := by
  rw [zip_map_self]
  by_cases hta : tw ≠ "all_time"
  · rw [if_pos hta]
    cases hc : cutoffOf tw nowTs with
    | none =>
        rw [filterMap_of_map]
        refine filterMap_congr' _ _ _ (fun r _ => ?_)
        unfold dateRec
        cases parseOk fr.hasDATA fr.hasANNO r with
        | none => rfl
        | some t =>
            dsimp only [Option.map]
            rw [windowPass_no_cutoff tw nowTs t hta hc]
            rfl
    | some c =>
        rw [filterMap_of_filter, filterMap_of_map]
        refine filterMap_congr' _ _ _ (fun r _ => ?_)
        unfold dateRec
        dsimp only
        cases parseOk fr.hasDATA fr.hasANNO r with
        | none => rfl
        | some t =>
            dsimp only [Option.map, keepRow]
            rw [windowPass_cutoff tw nowTs t c hta hc]
  · rw [if_neg hta]
    rw [not_not] at hta
    subst hta
    rw [filterMap_of_map]
    refine filterMap_congr' _ _ _ (fun r _ => ?_)
    unfold dateRec
    cases parseOk fr.hasDATA fr.hasANNO r with
    | none => rfl
    | some t =>
        dsimp only [Option.map]
        rw [windowPass_all_time nowTs t]
        rfl

theorem good_eq (fr : Frame) (rows0 : List Row) (tw : String) (nowTs : Ts) :
    (rows0.filterMap (dateRec fr tw nowTs)).filterMap
        (fun rt => (toNumeric rt.1.prezzo).map (fun p => (rt.1, rt.2, p))) =
      rows0.filterMap (goodRec fr tw nowTs) := by
  rw [filterMap_comp]
  exact filterMap_congr' _ _ _ (fun r _ => (goodRec_eq_bind fr tw nowTs r).symm)

theorem isEmpty_false_of_ne {α : Type} (l : List α) (h : l ≠ []) :
    ¬(l.isEmpty = true) := by
  cases l with
  | nil => exact absurd rfl h
  | cons a l => intro hh; cases hh

theorem buildResult_main (fr : Frame) (rows0 : List Row) (sr tw : String) (nowTs : Ts)
    (hg : goodOf fr rows0 tw nowTs ≠ []) :
    (buildResult fr rows0 (rows0.map (parseOk fr.hasDATA fr.hasANNO)) sr tw nowTs).overall =
        resampleSum (freqOf sr) ((goodOf fr rows0 tw nowTs).map (fun x => x.2)) ∧
    (buildResult fr rows0 (rows0.map (parseOk fr.hasDATA fr.hasANNO)) sr tw nowTs).places =
        (if fr.hasLUOGO then placeSeries (freqOf sr) (goodOf fr rows0 tw nowTs) else []) := by
  by_cases hP : fr.hasPREZZO = true
  case neg =>
    exfalso
    apply hg
    unfold goodOf
    rw [if_neg hP]
  case pos =>
    unfold goodOf at hg ⊢
    rw [if_pos hP] at hg ⊢
    unfold buildResult
    dsimp only
    rw [dgood_eq fr rows0 tw nowTs]
    have hdt : rows0.filterMap (dateRec fr tw nowTs) ≠ [] := by
      intro hnil
      apply hg
      rw [← good_eq fr rows0 tw nowTs, hnil]
      rfl
    rw [if_neg (isEmpty_false_of_ne _ hdt)]
    rw [if_neg (by simp [hP])]
    rw [filterMap_of_map]
    dsimp only
    rw [good_eq fr rows0 tw nowTs]
    rw [if_neg (isEmpty_false_of_ne _ hg)]
    exact ⟨rfl, rfl⟩

theorem buildResult_degenerate (fr : Frame) (rows0 : List Row) (sr tw : String)
    (nowTs : Ts) (hg : goodOf fr rows0 tw nowTs = []) :
    (buildResult fr rows0 (rows0.map (parseOk fr.hasDATA fr.hasANNO)) sr tw nowTs).overall
        = [] ∧
    (buildResult fr rows0 (rows0.map (parseOk fr.hasDATA fr.hasANNO)) sr tw nowTs).places
        = [] := by
  unfold buildResult
  dsimp only
  rw [dgood_eq fr rows0 tw nowTs]
  by_cases hdt : rows0.filterMap (dateRec fr tw nowTs) = []
  · rw [hdt]
    exact ⟨rfl, rfl⟩
  · rw [if_neg (isEmpty_false_of_ne _ hdt)]
    by_cases hP : fr.hasPREZZO = true
    · rw [if_neg (by simp [hP])]
      rw [filterMap_of_map]
      dsimp only
      rw [good_eq fr rows0 tw nowTs]
      unfold goodOf at hg
      rw [if_pos hP] at hg
      rw [hg]
      exact ⟨rfl, rfl⟩
    · rw [if_pos (by simp [hP])]
      exact ⟨rfl, rfl⟩

theorem eq_nil_of_isEmpty {α : Type} (l : List α) (h : l.isEmpty = true) : l = [] := by
  cases l with
  | nil => rfl
  | cons a l => cases h

theorem buildResult_unread (fr : Frame) (rows0 : List Row) (sr tw : String)
    (nowTs c : Ts) (hta : tw ≠ "all_time") (hc : cutoffOf tw nowTs = some c) :
    (buildResult fr rows0 (rows0.map (parseOk fr.hasDATA fr.hasANNO)) sr tw nowTs).unreadCount
        = 0 ∧
    (buildResult fr rows0 (rows0.map (parseOk fr.hasDATA fr.hasANNO)) sr tw nowTs).unreadSample
        = [] := by
  unfold buildResult
  dsimp only
  rw [if_pos hta, hc]
  dsimp only
  have hpred : ∀ a : Row × Option Ts, keepRow c a = true → (decide (a.2 = none)) = false := by
    intro a ha
    unfold keepRow at ha
    cases han : a.2 with
    | none => rw [han] at ha; cases ha
    | some t => rfl
  have hnil := filter_filter_nil (keepRow c) (fun rd => decide (rd.2 = none))
      (rows0.zip (rows0.map (parseOk fr.hasDATA fr.hasANNO))) hpred
  rw [hnil]
  split_ifs <;> exact ⟨rfl, rfl⟩

theorem line_revenue_ok (f : Frame) (sr tw : String) (nowTs : Ts) (r : LineResult)
    (h : line_revenue (some f) sr tw nowTs = .ok r) :
    (r = emptyFig "Nessun dato disponibile" ∧
       f.rows.filter (fun x => x.data ≠ Cell.nan) = []) ∨
    r = buildResult f (f.rows.filter (fun x => x.data ≠ Cell.nan))
          ((f.rows.filter (fun x => x.data ≠ Cell.nan)).map (parseOk f.hasDATA f.hasANNO))
          sr tw nowTs := by
  unfold line_revenue at h
  dsimp only at h
  by_cases hD : f.hasDATA = true
  · rw [if_neg (by simp [hD])] at h
    by_cases hE : (f.rows.filter (fun x => x.data ≠ Cell.nan)).isEmpty = true
    · rw [if_pos hE] at h
      cases h
      exact Or.inl ⟨rfl, eq_nil_of_isEmpty _ hE⟩
    · rw [if_neg hE] at h
      cases hex : exMap (parse_data_anno f.hasDATA f.hasANNO)
          (f.rows.filter (fun x => x.data ≠ Cell.nan)) with
      | error e => rw [hex] at h; cases h
      | ok dates =>
          rw [hex] at h
          dsimp only at h
          cases h
          have hd := exMap_ok_map (parse_data_anno f.hasDATA f.hasANNO)
            (parseOk f.hasDATA f.hasANNO)
            (parse_ok_parseOk f.hasDATA f.hasANNO) _ _ hex
          exact Or.inr (by rw [hd])
  · rw [if_pos (by simp [hD])] at h
    cases h

theorem goodOf_nil (f : Frame) (tw : String) (nowTs : Ts) :
    goodOf f [] tw nowTs = [] := by
  unfold goodOf
  split_ifs <;> rfl

theorem specEligible_eq (f : Frame) (tw : String) (nowTs : Ts) :
    specEligiblePrices f tw nowTs =
      (goodOf f (f.rows.filter (fun x => x.data ≠ Cell.nan)) tw nowTs).map
        (fun x => x.2.2) := by
  unfold specEligiblePrices goodOf
  by_cases hP : f.hasPREZZO = true
  · rw [if_pos hP, if_pos hP]
    rw [map_of_filterMap]
    rw [filterMap_of_absorbed (fun x => decide ¬(x.data = Cell.nan))
      (fun rr => (goodRec f tw nowTs rr).map (fun x => x.2.2)) f.rows ?habs]
    case habs =>
      intro a ha
      have hnan : a.data = Cell.nan := by
        by_contra hcon
        rw [decide_eq_false_iff_not] at ha
        exact ha hcon
      have hpk : parseOk f.hasDATA f.hasANNO a = none := parseOk_nan _ _ a hnan
      unfold goodRec
      dsimp only
      rw [hpk]
      rfl
    refine filterMap_congr' _ _ _ (fun rr _ => ?_)
    unfold goodRec
    cases parseOk f.hasDATA f.hasANNO rr with
    | none => rfl
    | some t =>
        dsimp only
        by_cases hw : windowPass tw nowTs t = true
        · rw [if_pos hw, if_pos hw]
          cases toNumeric rr.prezzo with
          | none => rfl
          | some p => rfl
        · rw [if_neg hw, if_neg hw]
          rfl
  · rw [if_neg hP, if_neg hP]
    rfl

theorem cutoffOf_some_ne_all_time (tw : String) (nowTs c : Ts)
    (hc : cutoffOf tw nowTs = some c) : tw ≠ "all_time" := by
  intro h
  subst h
  rw [show cutoffOf "all_time" nowTs = none from rfl] at hc
  cases hc

theorem placeSeries_bucket (f : Freq) (good : List (Row × Ts × Rat))
    (gs : String × List (Ts × Rat)) (hgs : gs ∈ placeSeries f good)
    (b : Ts × Rat) (hb : b ∈ gs.2) :
    ∃ j : Int, b.1 = bucketStart f j ∧ ∃ x ∈ good, bucketIdx f x.2.1 ≤ j := by
  unfold placeSeries at hgs
  dsimp only at hgs
  rcases List.mem_map.mp hgs with ⟨g, hgkeys, rfl⟩
  dsimp only at hb
  rcases List.mem_map.mp hb with ⟨t, htmem, rfl⟩
  have ht2 := mem_sortBy _ _ _ htmem
  have ht3 := List.mem_dedup.mp ht2
  rcases List.mem_flatten.mp ht3 with ⟨lst, hlst, htl⟩
  rcases List.mem_map.mp hlst with ⟨g', hg', rfl⟩
  rcases List.mem_map.mp htl with ⟨p, hp, rfl⟩
  rcases resampleSum_mem f _ p hp with ⟨j, hj1, q, hq, hj2⟩
  refine ⟨j, hj1, ?_⟩
  rcases List.mem_map.mp hq with ⟨x, hx, rfl⟩
  have hx2 := (List.mem_filter.mp hx).1
  have hx3 := (List.mem_filter.mp hx2).1
  exact ⟨x, hx3, hj2⟩

theorem goodOf_window_idx (f : Frame) (rows0 : List Row) (sr tw : String)
    (nowTs c : Ts) (hnow : nowTs.Valid) (hc : cutoffOf tw nowTs = some c) :
    ∀ x ∈ goodOf f rows0 tw nowTs,
      bucketIdx (freqOf sr) c ≤ bucketIdx (freqOf sr) x.2.1 := by
  intro x hx
  unfold goodOf at hx
  by_cases hP : f.hasPREZZO = true
  · rw [if_pos hP] at hx
    rcases List.mem_filterMap.mp hx with ⟨rr, _, hrr⟩
    rcases goodRec_some f tw nowTs rr x hrr with ⟨hpk, hwpass⟩
    have hta := cutoffOf_some_ne_all_time tw nowTs c hc
    rw [windowPass_cutoff tw nowTs x.2.1 c hta hc] at hwpass
    have hcle : tsKey c ≤ tsKey x.2.1 := of_decide_eq_true hwpass
    exact bucketIdx_mono (freqOf sr) c x.2.1 (cutoffOf_valid tw nowTs c hnow hc)
      (parseOk_valid _ _ _ _ hpk) hcle
  · rw [if_neg hP] at hx
    cases hx

theorem head_mem_of_map_fst {α β : Type} (L : List (α × β)) (t : α) (ts : List α)
    (h : L.map Prod.fst = t :: ts) : ∃ b ∈ L, b.1 = t := by
  cases L with
  | nil => cases h
  | cons b l =>
      refine ⟨b, List.mem_cons_self b l, ?_⟩
      injection h

/-! ## Claims -/

/-- Claim C1: refuted (code bug).  The aggregator does not return a
degenerate no-data result on every input: an absent (`None`) table
raises a `TypeError` and a table missing the `DATA` column raises a
`KeyError`, because line 81 subscripts the dataframe before the
None/empty guard of line 83 can run. -/
theorem c1_missing_table_raises :
    line_revenue none "day" "all_time" ⟨2025, 10, 7, 0⟩ = .error .typeError ∧
    line_revenue (some frameNoDATA) "day" "all_time" ⟨2025, 10, 7, 0⟩ = .error .keyError :=
  ⟨rfl, rfl⟩

/-- Claim C2: corrected.  For a windowed call, every bucket of the
overall and of every per-place series is the left label of a
granularity period no earlier than the period containing the cutoff;
the label itself (the period's start instant) can still precede the
cutoff instant, which refutes the claim as stated. -/
theorem c2_buckets_in_cutoff_period (f : Frame) (sr tw : String) (nowTs : Ts)
    (r : LineResult) (c : Ts) (b : Ts × Rat)
    (hnow : nowTs.Valid) (hc : cutoffOf tw nowTs = some c)
    (hok : line_revenue (some f) sr tw nowTs = .ok r)
    (hb : b ∈ r.overall ∨ ∃ gs ∈ r.places, b ∈ gs.2) :
    ∃ j : Int, bucketIdx (freqOf sr) c ≤ j ∧ b.1 = bucketStart (freqOf sr) j := by
  rcases line_revenue_ok f sr tw nowTs r hok with ⟨rfl, -⟩ | rfl
  · rcases hb with hb | ⟨gs, hgs, hbg⟩
    · cases hb
    · cases hgs
  · by_cases hgood : goodOf f (f.rows.filter (fun x => x.data ≠ Cell.nan)) tw nowTs = []
    · rcases buildResult_degenerate f _ sr tw nowTs hgood with ⟨ho, hp⟩
      rcases hb with hb | ⟨gs, hgs, hbg⟩
      · rw [ho] at hb; cases hb
      · rw [hp] at hgs; cases hgs
    · rcases buildResult_main f _ sr tw nowTs hgood with ⟨ho, hp⟩
      have hwp := goodOf_window_idx f (f.rows.filter (fun x => x.data ≠ Cell.nan))
        sr tw nowTs c hnow hc
      rcases hb with hb | ⟨gs, hgs, hbg⟩
      · rw [ho] at hb
        rcases resampleSum_mem (freqOf sr) _ b hb with ⟨j, hj1, q, hq, hj2⟩
        rcases List.mem_map.mp hq with ⟨x, hx, rfl⟩
        exact ⟨j, le_trans (hwp x hx) hj2, hj1⟩
      · rw [hp] at hgs
        by_cases hL : f.hasLUOGO = true
        · rw [if_pos hL] at hgs
          rcases placeSeries_bucket (freqOf sr) _ gs hgs b hbg with ⟨j, hj1, x, hx, hj2⟩
          exact ⟨j, le_trans (hwp x hx) hj2, hj1⟩
        · rw [if_neg hL] at hgs; cases hgs

/-- Witness for C2 at a concrete windowed call: the month bucket of one
August sale is the period containing the last_month cutoff. -/
theorem c2_buckets_in_cutoff_period_witness :
    (⟨2025, 10, 5, 0⟩ : Ts).Valid ∧
    cutoffOf "last_month" ⟨2025, 10, 5, 0⟩ = some ⟨2025, 8, 29, 82800⟩ ∧
    ∃ r, line_revenue (some augFrame) "month" "last_month" ⟨2025, 10, 5, 0⟩ = .ok r ∧
      ∃ b, (b ∈ r.overall ∨ ∃ gs ∈ r.places, b ∈ gs.2) ∧
        ∃ j : Int, bucketIdx (freqOf "month") ⟨2025, 8, 29, 82800⟩ ≤ j ∧
          b.1 = bucketStart (freqOf "month") j := by
  refine ⟨by decide, rfl,
    (match line_revenue (some augFrame) "month" "last_month" ⟨2025, 10, 5, 0⟩ with
     | .ok r => r | .error _ => emptyFig ""), rfl, ?_⟩
  have hfst : (match line_revenue (some augFrame) "month" "last_month" ⟨2025, 10, 5, 0⟩ with
      | .ok r => r | .error _ => emptyFig "").overall.map Prod.fst =
        [⟨2025, 8, 1, 0⟩] := by decide
  rcases head_mem_of_map_fst _ _ _ hfst with ⟨b, hb, -⟩
  exact ⟨b, Or.inl hb,
    c2_buckets_in_cutoff_period augFrame "month" "last_month" ⟨2025, 10, 5, 0⟩ _
      ⟨2025, 8, 29, 82800⟩ b (by decide) rfl rfl (Or.inl hb)⟩

/-- Counterexample for C2 as literally stated: a returned month bucket
label (2025-08-01) is strictly earlier than the last_month cutoff
(2025-08-29 23:00). -/
theorem c2_label_precedes_cutoff :
    cutoffOf "last_month" ⟨2025, 10, 5, 0⟩ = some ⟨2025, 8, 29, 82800⟩ ∧
    (match line_revenue (some augFrame) "month" "last_month" ⟨2025, 10, 5, 0⟩ with
      | .ok r => r.overall.map Prod.fst | .error _ => []) = [⟨2025, 8, 1, 0⟩] ∧
    tsKey (⟨2025, 8, 1, 0⟩ : Ts) < tsKey ⟨2025, 8, 29, 82800⟩ :=
  ⟨rfl, by decide, by decide⟩

/-- Claim C3: refuted (code bug).  The direct full-string parse
(`pd.to_datetime` with its `dayfirst=False` default) is month-first on
ambiguous all-numeric dates: '05/08/2025' resolves to 2025-05-08
(8 May), not to 5 August as the day-before-month convention of the
specification requires. -/
theorem c3_direct_parse_month_first :
    parse_data_anno true true (rowD (Cell.str "05/08/2025") Cell.nan Cell.nan Cell.nan) =
      .ok (some ⟨2025, 5, 8, 0⟩) ∧
    (⟨2025, 5, 8, 0⟩ : Ts) ≠ ⟨2025, 8, 5, 0⟩ :=
  ⟨rfl, by decide⟩

/-- Claim C4: corrected.  A raw timestamp resolves for any fallback-year
cell, but the resolver returns the full timestamp with its time of day
retained (10:15:00 is second-of-day 36900), not the date portion only. -/
theorem c4_timestamp_time_retained (a p l : Cell) :
    parse_data_anno true true (rowD (Cell.str "2024-08-31 10:15:00") a p l) =
      .ok (some ⟨2024, 8, 31, 36900⟩) := rfl

/-- Counterexample for C4 as literally stated: the resolved value is not
the midnight date 2024-08-31 00:00. -/
theorem c4_time_not_discarded :
    (match parse_data_anno true true
        (rowD (Cell.str "2024-08-31 10:15:00") Cell.nan Cell.nan Cell.nan) with
      | .ok v => v | .error _ => none) ≠ some ⟨2024, 8, 31, 0⟩ := by decide

/-- Claim C5: corrected.  The two-fragment rule (day, month, year from
the fallback column, unresolved without a usable fallback) holds only
on the manual-cascade path, i.e. when the direct `pd.to_datetime` parse
of the cleaned string has already failed; the year is the fallback
`int(float(ANNO))` value and an invalid day/month combination is
unresolved (`mkTimestamp` failure is caught). -/
theorem c5_two_fragment_rule (s a0 a1 : String) (ac pc lc : Cell) (d m : Int)
    (hraw : removeCh zwspCh (pyStrip s) ≠ "" ∧
            pyLower (removeCh zwspCh (pyStrip s)) ≠ "nan" ∧
            pyLower (removeCh zwspCh (pyStrip s)) ≠ "none")
    (hdir : pdToDatetime (removeCh zwspCh (pyStrip s)) = none)
    (hfr : fragsOf (removeCh zwspCh (pyStrip s)) = [a0, a1])
    (hd : pyInt a0 = .ok d) (hm : pyInt a1 = .ok m) :
    (∀ yv : Int, annoYear true ac = .ok (some yv) →
        parse_data_anno true true (rowD (Cell.str s) ac pc lc) =
          .ok (mkTimestamp yv m d).toOption) ∧
    (annoYear true ac = .ok none →
        parse_data_anno true true (rowD (Cell.str s) ac pc lc) = .ok none) := by
  have hcond : ¬(removeCh zwspCh (pyStrip s) = "" ∨
      pyLower (removeCh zwspCh (pyStrip s)) = "nan" ∨
      pyLower (removeCh zwspCh (pyStrip s)) = "none") := by
    simp only [not_or]
    exact ⟨hraw.1, hraw.2.1, hraw.2.2⟩
  constructor
  · intro yv hy
    show (if removeCh zwspCh (pyStrip s) = "" ∨
          pyLower (removeCh zwspCh (pyStrip s)) = "nan" ∨
          pyLower (removeCh zwspCh (pyStrip s)) = "none" then Except.ok none
        else
          match pdToDatetime (removeCh zwspCh (pyStrip s)) with
          | some dt => Except.ok (some dt)
          | none => fragCascade true ac (fragsOf (removeCh zwspCh (pyStrip s)))) =
      Except.ok (mkTimestamp yv m d).toOption
    rw [if_neg hcond, hdir]
    dsimp only
    rw [hfr]
    unfold fragCascade
    dsimp only [bind, Except.bind, pure, Except.pure]
    rw [hd]
    dsimp only
    rw [hm]
    dsimp only
    rw [hy]
    dsimp only
    rcases mkTimestamp_cases yv m d with ⟨t, hmk⟩ | hmk <;> rw [hmk] <;> rfl
  · intro hy
    show (if removeCh zwspCh (pyStrip s) = "" ∨
          pyLower (removeCh zwspCh (pyStrip s)) = "nan" ∨
          pyLower (removeCh zwspCh (pyStrip s)) = "none" then Except.ok none
        else
          match pdToDatetime (removeCh zwspCh (pyStrip s)) with
          | some dt => Except.ok (some dt)
          | none => fragCascade true ac (fragsOf (removeCh zwspCh (pyStrip s)))) =
      Except.ok none
    rw [if_neg hcond, hdir]
    dsimp only
    rw [hfr]
    unfold fragCascade
    dsimp only [bind, Except.bind, pure, Except.pure]
    rw [hd]
    dsimp only
    rw [hm]
    dsimp only
    rw [hy]

/-- Witness for C5: '31/08' with fallback year 2024 resolves to
2024-08-31. -/
theorem c5_two_fragment_rule_witness :
    (removeCh zwspCh (pyStrip "31/08") ≠ "" ∧
     pyLower (removeCh zwspCh (pyStrip "31/08")) ≠ "nan" ∧
     pyLower (removeCh zwspCh (pyStrip "31/08")) ≠ "none") ∧
    pdToDatetime (removeCh zwspCh (pyStrip "31/08")) = none ∧
    fragsOf (removeCh zwspCh (pyStrip "31/08")) = ["31", "08"] ∧
    pyInt "31" = .ok 31 ∧ pyInt "08" = .ok 8 ∧
    annoYear true (Cell.num 2024) = .ok (some 2024) ∧
    parse_data_anno true true (rowD (Cell.str "31/08") (Cell.num 2024) Cell.nan Cell.nan) =
      .ok (mkTimestamp 2024 8 31).toOption :=
  ⟨by decide, by decide, by decide, rfl, rfl, rfl,
   (c5_two_fragment_rule "31/08" "31" "08" (Cell.num 2024) Cell.nan Cell.nan 31 8
      (by decide) (by decide) (by decide) rfl rfl).1 2024 rfl⟩

/-- Counterexample for C5 as literally stated: '2024-08' splits into the
two numeric fragments 2024 and 08, yet with an absent fallback year it
resolves to 2024-08-01 through the direct parse instead of being
unresolved. -/
theorem c5_direct_parse_preempts :
    fragsOf (removeCh zwspCh (pyStrip "2024-08")) = ["2024", "08"] ∧
    (match parse_data_anno true true
        (rowD (Cell.str "2024-08") Cell.nan Cell.nan Cell.nan) with
      | .ok v => v | .error _ => none) = some ⟨2024, 8, 1, 0⟩ :=
  ⟨by decide, by decide⟩

/-- Claim C6: refuted (code bug).  A three-numeric-fragment date whose
first fragment is a plausible month is taken by the direct
`pd.to_datetime` parse, month-first: '01/02/2025' resolves to
2025-01-02 (2 January), not to 1 February as the day/month/year order
of the specification requires; and a two-digit year is expanded by
dateutil's century rule instead of the claimed unconditional 2000+yy,
so '31/8/85' resolves to 1985-08-31 rather than 2085-08-31. -/
theorem c6_three_fragments_month_first :
    fragsOf (removeCh zwspCh (pyStrip "01/02/2025")) = ["01", "02", "2025"] ∧
    parse_data_anno true true (rowD (Cell.str "01/02/2025") Cell.nan Cell.nan Cell.nan) =
      .ok (some ⟨2025, 1, 2, 0⟩) ∧
    (⟨2025, 1, 2, 0⟩ : Ts) ≠ ⟨2025, 2, 1, 0⟩ ∧
    fragsOf (removeCh zwspCh (pyStrip "31/8/85")) = ["31", "8", "85"] ∧
    parse_data_anno true true (rowD (Cell.str "31/8/85") Cell.nan Cell.nan Cell.nan) =
      .ok (some ⟨1985, 8, 31, 0⟩) ∧
    (⟨1985, 8, 31, 0⟩ : Ts).y ≠ 2000 + 85 :=
  ⟨by decide, rfl, by decide, by decide, rfl, by decide⟩

/-- Claim C7: confirmed.  For every table and every granularity and
window, the sum of the overall series totals equals the sum of the
prices of exactly the records whose date resolves, survives the window,
and whose price coerces to a number. -/
theorem c7_overall_sum_conservation (f : Frame) (sr tw : String) (nowTs : Ts)
    (r : LineResult) (hok : line_revenue (some f) sr tw nowTs = .ok r) :
    sumTotals r.overall = (specEligiblePrices f tw nowTs).sum := by
  rcases line_revenue_ok f sr tw nowTs r hok with ⟨rfl, hnil⟩ | rfl
  · rw [specEligible_eq, hnil, goodOf_nil]
    rfl
  · by_cases hgood : goodOf f (f.rows.filter (fun x => x.data ≠ Cell.nan)) tw nowTs = []
    · rcases buildResult_degenerate f _ sr tw nowTs hgood with ⟨ho, -⟩
      rw [ho, specEligible_eq, hgood]
      rfl
    · rcases buildResult_main f _ sr tw nowTs hgood with ⟨ho, -⟩
      rw [ho, resampleSum_sum, specEligible_eq, List.map_map]
      rfl

/-- Witness for C7 at a mixed concrete table (one unparseable date, one
non-numeric price, two kept sales). -/
theorem c7_overall_sum_conservation_witness :
    ∃ r, line_revenue (some mixFrame) "week" "all_time" ⟨2025, 10, 7, 0⟩ = .ok r ∧
      sumTotals r.overall =
        (specEligiblePrices mixFrame "all_time" ⟨2025, 10, 7, 0⟩).sum :=
  ⟨(match line_revenue (some mixFrame) "week" "all_time" ⟨2025, 10, 7, 0⟩ with
     | .ok r => r | .error _ => emptyFig ""), rfl,
   c7_overall_sum_conservation mixFrame "week" "all_time" ⟨2025, 10, 7, 0⟩ _ rfl⟩

/-- Claim C8: corrected.  The resolver is total whenever Python
`float(...)` of the fallback-year cell is not an infinity; with an
infinite fallback (`ANNO = 'inf'`), `int(float(...))` raises an
`OverflowError` that none of the `except` clauses catches. -/
theorem c8_resolver_total_finite_anno (hD hA : Bool) (r : Row)
    (hfin : finiteAnno r.anno) :
    ∃ v, parse_data_anno hD hA r = .ok v :=
  parse_data_anno_total hD hA r hfin

/-- Witness for C8: the invalid calendar date '31/02/2024' is resolved
without an exception (to the unresolved marker). -/
theorem c8_resolver_total_finite_anno_witness :
    finiteAnno Cell.nan ∧
    ∃ v, parse_data_anno true true
        (rowD (Cell.str "31/02/2024") Cell.nan Cell.nan Cell.nan) = .ok v :=
  ⟨fun b h => PyFloat.noConfusion (Except.ok.inj h),
   c8_resolver_total_finite_anno true true
     (rowD (Cell.str "31/02/2024") Cell.nan Cell.nan Cell.nan)
     (fun b h => PyFloat.noConfusion (Except.ok.inj h))⟩

/-- Counterexample for C8 as literally stated: a two-fragment date with
the fallback cell 'inf' makes the resolver raise an uncaught
`OverflowError` instead of returning unresolved. -/
theorem c8_overflow_propagates :
    parse_data_anno true true
        (rowD (Cell.str "31/08") (Cell.str "inf") Cell.nan Cell.nan) =
      .error .overflowError := rfl

/-- Claim C9: corrected.  The aggregation is a pure function of the
table, the parameters and the current instant, and for the all_time
window it does not depend on the current instant at all; for the three
windowed choices the result does depend on the clock, so two
invocations at different instants can differ (see the counterexample),
which is the sense in which the claim as stated fails. -/
theorem c9_all_time_clock_independent (df : Option Frame) (sr : String) (n1 n2 : Ts) :
    line_revenue df sr "all_time" n1 = line_revenue df sr "all_time" n2 := rfl

/-- Counterexample for C9 as literally stated: the same table and
parameters give different results at two different current instants
(the hidden dependence is the clock read by the windowed filter). -/
theorem c9_windowed_depends_on_clock :
    (match line_revenue (some augFrame) "day" "last_month" ⟨2025, 9, 10, 0⟩ with
      | .ok r => r.title | .error _ => "") ≠
    (match line_revenue (some augFrame) "day" "last_month" ⟨2026, 1, 10, 0⟩ with
      | .ok r => r.title | .error _ => "") := by decide

/-- Claim C10: confirmed.  For the three windowed choices, rows with an
unresolvable date fail the `_date >= cutoff` comparison and are removed
before the diagnostics are computed, so a successful windowed call
reports an unreadable-date count of 0 and an empty sample. -/
theorem c10_windowed_no_unread (df : Option Frame) (sr tw : String) (nowTs : Ts)
    (r : LineResult)
    (htw : tw = "last_year" ∨ tw = "last_3_months" ∨ tw = "last_month")
    (hok : line_revenue df sr tw nowTs = .ok r) :
    r.unreadCount = 0 ∧ r.unreadSample = [] := by
  cases df with
  | none => cases hok
  | some f =>
      rcases line_revenue_ok f sr tw nowTs r hok with ⟨rfl, -⟩ | rfl
      · exact ⟨rfl, rfl⟩
      · rcases htw with rfl | rfl | rfl
        · exact buildResult_unread f _ sr _ nowTs _ (by decide) rfl
        · exact buildResult_unread f _ sr _ nowTs _ (by decide) rfl
        · exact buildResult_unread f _ sr _ nowTs _ (by decide) rfl

/-- Witness for C10 at a concrete windowed call on a table with one
unparseable date. -/
theorem c10_windowed_no_unread_witness :
    ("last_3_months" = "last_year" ∨ "last_3_months" = "last_3_months" ∨
      "last_3_months" = "last_month") ∧
    ∃ r, line_revenue (some mixFrame) "day" "last_3_months" ⟨2025, 12, 1, 0⟩ = .ok r ∧
      r.unreadCount = 0 ∧ r.unreadSample = [] :=
  ⟨Or.inr (Or.inl rfl),
   (match line_revenue (some mixFrame) "day" "last_3_months" ⟨2025, 12, 1, 0⟩ with
     | .ok r => r | .error _ => emptyFig ""), rfl,
   c10_windowed_no_unread (some mixFrame) "day" "last_3_months" ⟨2025, 12, 1, 0⟩ _
     (Or.inr (Or.inl rfl)) rfl⟩

end Lart